import Mathlib

/-!
# uncors: forwarding handler, server control and mocked routes

A shallow embedding of

* `src/main.go`: `createHandler` (the CORS-injecting forwarding handler) and
  `serverControl.startServer` / `serverControl.stopServer`;
* `internal/mock/routes.go`: `MakeMockedRoutes` and its route setters.

The Go standard library (`net/http`, `net/url`, `strings`) and `gorilla/mux`
are the environment of that code.  Their data types are modelled here as far
as the embedded code observes them; the operations whose result depends on
the network or on URL syntax are fields of `Env`.
-/

set_option autoImplicit false

namespace Uncors

/-! ## `net/http` headers -/

/-- Bytes of a request or response body. -/
abbrev Bytes := List UInt8

/-- ASCII bytes of a string constant (every message written by the code is ASCII). -/
def bytesOf (s : String) : Bytes := s.data.map (fun c => UInt8.ofNat c.toNat)

/-- An `http.Header`, the Go map `map[string][]string`, as an association list.
A Go map has pairwise different keys; the order of the list is the order in
which a `range` loop visits the map, which Go leaves unspecified. -/
abbrev Header := List (String × List String)

/-- The keys of a header map, in iteration order. -/
def Header.keys (h : Header) : List String := h.map Prod.fst

/-- Go's `h[k]`: the values stored under exactly the key `k`, empty when absent. -/
def Header.values (h : Header) (k : String) : List String := (h.lookup k).getD []

/-- Go's map store `h[k] = vs`: replaces the entry of `k`, or makes a new one. -/
def Header.put : Header → String → List String → Header
  | [], k, vs => [(k, vs)]
  | (k', vs') :: t, k, vs => if k' = k then (k, vs) :: t else (k', vs') :: Header.put t k vs

/-- The bytes `net/textproto` accepts in a header field name (RFC 7230 token characters). -/
def validHeaderFieldByte (c : Char) : Bool :=
  c.isAlphanum || [33, 35, 36, 37, 38, 39, 42, 43, 45, 46, 94, 95, 96, 124, 126].contains c.toNat

/-- The canonical letter case of a field name: upper case at the start and after
each dash, lower case elsewhere. -/
def canonicalChars : Bool → List Char → List Char
  | _, [] => []
  | upper, c :: cs =>
    let c' := if upper then c.toUpper else c.toLower
    c' :: canonicalChars (c' == '-') cs

/-- Go's `textproto.CanonicalMIMEHeaderKey`: a name with a byte that is not a
token character is returned unchanged, every other name is put in canonical
letter case. -/
def CanonicalMIMEHeaderKey (s : String) : String :=
  if s.data.all validHeaderFieldByte then String.mk (canonicalChars true s.data) else s

/-- Go's `Header.Add`: appends `value` to the values of the canonical form of `key`. -/
def Header.Add (h : Header) (key value : String) : Header :=
  let k := CanonicalMIMEHeaderKey key
  h.put k (h.values k ++ [value])

/-- Go's `Header.Set`: the canonical form of `key` gets the single value `value`. -/
def Header.Set (h : Header) (key value : String) : Header :=
  h.put (CanonicalMIMEHeaderKey key) [value]

/-- Go's `Header.Del`: removes the entry of the canonical form of `key`. -/
def Header.Del (h : Header) (key : String) : Header :=
  h.filter (fun e => e.1 != CanonicalMIMEHeaderKey key)

/-- Go's `Header.Get`: the first value of the canonical form of `key`, `""` when there is none. -/
def Header.Get (h : Header) (key : String) : String :=
  ((h.values (CanonicalMIMEHeaderKey key)).head?).getD ""

/-- A header map as `net/http` hands it to a handler or returns it from a
client call: a Go map (no key twice) whose keys are in canonical form. -/
def Header.WellFormed (h : Header) : Prop :=
  h.keys.Nodup ∧ ∀ k ∈ h.keys, CanonicalMIMEHeaderKey k = k

instance (h : Header) : Decidable (Header.WellFormed h) := by
  unfold Header.WellFormed; exact inferInstance

/-- Go's `strings.EqualFold` on ASCII letters.  For the comparison with
`"Origin"` made by the handler this is all of Unicode simple case folding: no
letter of `origin` has a fold partner outside ASCII. -/
def EqualFold (s t : String) : Bool :=
  s.data.map Char.toLower == t.data.map Char.toLower

/-! ## `net/url` and requests -/

/-- The fields of a Go `url.URL`. -/
structure URL where
  Scheme : String
  Opaque : String
  User : Option (String × Option String)
  Host : String
  Path : String
  RawPath : String
  OmitHost : Bool
  ForceQuery : Bool
  RawQuery : String
  Fragment : String
  RawFragment : String
deriving DecidableEq

/-- The fields of the incoming `*http.Request` that the handler reads. -/
structure Request where
  Method : String
  URL : URL
  Header : Header
  Body : Bytes
deriving DecidableEq

/-- The request `http.NewRequest` returns and the handler passes to `client.Do`. -/
structure UpstreamRequest where
  Method : String
  URL : URL
  Header : Header
  Body : Bytes
deriving DecidableEq

/-- An upstream `*http.Response`; `Body` is the sequence of chunks that
reading the body stream yields. -/
structure UpstreamResponse where
  StatusCode : Nat
  Header : Header
  Body : List Bytes
deriving DecidableEq

/-- A failed `client.Do`: the error, and the response Go may return next to it
(as it does when a redirect check fails). -/
structure DoError where
  msg : String
  resp : Option UpstreamResponse
deriving DecidableEq

/-- The library operations whose result is not determined by the code of this
repository. -/
structure Env where
  /-- The result of `url.Parse`, `none` for an error. -/
  urlParse : String → Option URL
  /-- The result of `URL.String`. -/
  urlString : URL → String
  /-- The URL of the request `http.NewRequest method url body` makes, `none`
  when it returns an error (invalid method, unparsable URL). -/
  newRequest : String → String → Option URL
  /-- The result of `client.Do`. -/
  clientDo : UpstreamRequest → Except DoError UpstreamResponse

/-- Go's `http.NewRequest`: the request has the given method (`GET` for an
empty one), an empty header map and the given body. -/
def NewRequest (env : Env) (method url : String) (body : Bytes) : Except String UpstreamRequest :=
  match env.newRequest method url with
  | none => .error "net/http: cannot create request"
  | some u =>
    .ok { Method := if method = "" then "GET" else method, URL := u, Header := [], Body := body }

/-! ## The response writer -/

/-- An `http.ResponseWriter` as a handler sees it: the header map `w.Header()`; what
has been sent, which is the final status with the headers as they were when it was
written, the body bytes, and the informational (1xx) responses with their headers; and
the panic that ended the run, if any.  What the server adds when it frames the response
(`Date`, a sniffed `Content-Type`, `Content-Length` or chunking) is not part of it. -/
structure ResponseWriter where
  header : Header
  status : Option Nat
  sentHeader : Header
  body : Bytes
  informational : List (Nat × Header)
  panic : Option String
deriving DecidableEq

/-- A writer nothing has been written to. -/
def ResponseWriter.new : ResponseWriter :=
  { header := [], status := none, sentHeader := [], body := [], informational := [],
    panic := none }

/-- Go's `w.WriteHeader(code)`.  After a final status it changes nothing.  A code below
100 or above 999 panics (`checkWriteHeaderCode`) and nothing is sent.  A code from 100 to
199 other than 101 sends an informational response with the current headers, less
`Content-Length` and `Transfer-Encoding`, and leaves the final status open.  Every other
code is the final status, sent with the current header map. -/
def ResponseWriter.WriteHeader (w : ResponseWriter) (code : Nat) : ResponseWriter :=
  match w.status with
  | some _ => w
  | none =>
    if code < 100 ∨ 999 < code then
      { w with panic := some "invalid WriteHeader code" }
    else if 100 ≤ code ∧ code ≤ 199 ∧ code ≠ 101 then
      { w with informational := w.informational ++
          [(code, (w.header.Del "Content-Length").Del "Transfer-Encoding")] }
    else
      { w with status := some code, sentHeader := w.header }

/-- Go's `bodyAllowedForStatus`: no body after a 1xx, 204 or 304 status. -/
def bodyAllowedForStatus (status : Nat) : Bool :=
  !((100 ≤ status && status ≤ 199) || status == 204 || status == 304)

/-- Go's `w.Write(bs)`, with `true` for a nil error: status 200 is sent first when no
final status was written; an empty slice writes nothing; after a status that allows no
body nothing is written and the error is `ErrBodyNotAllowed`.  The check against a
declared `Content-Length` is left out: a body the client hands over is never longer than
the `Content-Length` it reports. -/
def ResponseWriter.Write (w : ResponseWriter) (bs : Bytes) : ResponseWriter × Bool :=
  let w := if w.status.isNone then w.WriteHeader 200 else w
  if bs.isEmpty then (w, true)
  else
    match w.status with
    | none => (w, false)
    | some status =>
      if bodyAllowedForStatus status then ({ w with body := w.body ++ bs }, true)
      else (w, false)

/-- Go's `http.Error(w, error, code)`; the error of the final `Fprintln` is dropped, and
a panic of `WriteHeader` ends the call. -/
def httpError (w : ResponseWriter) (error : String) (code : Nat) : ResponseWriter :=
  let h := w.header.Del "Content-Length"
  let h := h.Set "Content-Type" "text/plain; charset=utf-8"
  let h := h.Set "X-Content-Type-Options" "nosniff"
  let w := { w with header := h }
  let w := w.WriteHeader code
  if w.panic.isSome then w else (w.Write (bytesOf (error ++ "\n"))).1

/-- Go's `io.Copy(w, body)`: every non-empty chunk read from the body is written to `w`,
up to the first write that returns an error. -/
def ioCopy : ResponseWriter → List Bytes → ResponseWriter
  | w, [] => w
  | w, c :: cs =>
    if c.isEmpty then ioCopy w cs
    else
      match w.Write c with
      | (w', true) => ioCopy w' cs
      | (w', false) => w'

/-! ## `createHandler` -/

/-- What one run of the handler did: the response, the arguments of each
`http.NewRequest` call, the requests passed to `client.Do`, and whether the
upstream body was closed. -/
structure Outcome where
  w : ResponseWriter
  built : List (String × String)
  sent : List UpstreamRequest
  closed : Bool
deriving DecidableEq

/-- Lines 86 to 88 of `main.go`: a copy of the parsed API URL with the path and the
raw query of the incoming request. -/
def targetURL (parsedAPIURL : URL) (r : Request) : URL :=
  let targetURL := parsedAPIURL
  let targetURL := { targetURL with Path := r.URL.Path }
  { targetURL with RawQuery := r.URL.RawQuery }

/-- Lines 96 to 103 of `main.go`: the header copy loop of the upstream request. -/
def copyRequestHeaders (src : Header) (dst : Header) : Header :=
  src.foldl (fun dst kv =>
    if EqualFold kv.1 "Origin" then dst
    else kv.2.foldl (fun dst value => dst.Add kv.1 value) dst) dst

/-- Lines 113 to 117 of `main.go`: the header copy loop of the response. -/
def copyResponseHeaders (src : Header) (dst : Header) : Header :=
  src.foldl (fun dst kv => kv.2.foldl (fun dst value => dst.Add kv.1 value) dst) dst

/-- The handler function that `createHandler` returns (lines 76 to 120).  A panic of
`WriteHeader` at line 118 ends the run before `io.Copy`; the deferred `Close` of line 111
still runs. -/
def handler (env : Env) (parsedAPIURL : URL) (r : Request) : Outcome :=
  let w := ResponseWriter.new
  let w := { w with header := w.header.Set "Access-Control-Allow-Origin" "*" }
  let w := { w with header := w.header.Set "Access-Control-Allow-Methods" "*" }
  let w := { w with header := w.header.Set "Access-Control-Allow-Headers" "*" }
  if r.Method = "OPTIONS" then
    { w := w.WriteHeader 200, built := [], sent := [], closed := false }
  else
    let target := env.urlString (targetURL parsedAPIURL r)
    match NewRequest env r.Method target r.Body with
    | .error _ =>
      { w := httpError w "Failed to create request" 500,
        built := [(r.Method, target)], sent := [], closed := false }
    | .ok req =>
      let req := { req with Header := copyRequestHeaders r.Header req.Header }
      match env.clientDo req with
      | .error _ =>
        { w := httpError w "Failed to make request to target URL" 500,
          built := [(r.Method, target)], sent := [req], closed := false }
      | .ok resp =>
        let w := { w with header := copyResponseHeaders resp.Header w.header }
        let w := w.WriteHeader resp.StatusCode
        let w := if w.panic.isSome then w else ioCopy w resp.Body
        { w := w, built := [(r.Method, target)], sent := [req], closed := true }

/-- Go's `createHandler(apiURL)`: an unparsable API URL is fatal (`log.Fatalf`). -/
def createHandler (env : Env) (apiURL : String) : Except String (Request → Outcome) :=
  match env.urlParse apiURL with
  | none => .error "Invalid API URL"
  | some parsedAPIURL => .ok (handler env parsedAPIURL)

/-- The three header names the handler injects. -/
def corsNames : List String :=
  ["Access-Control-Allow-Origin", "Access-Control-Allow-Methods", "Access-Control-Allow-Headers"]

/-! ## `serverControl`

The heap of `http.Server` values, the cancel functions and the serving
goroutines are part of the state, so that what `startServer` and `stopServer`
do to them can be observed.  A section of code that runs with `sc.mu` held is
one atomic step. -/

/-- An `http.Server` made at line 41: its address, the API URL its handler was
created for, whether a `ListenAndServe` call on it holds a bound listener, and
whether `Shutdown` was called on it. -/
structure Server where
  Addr : String
  apiURL : String
  listening : Bool
  inShutdown : Bool
deriving DecidableEq

/-- The place a serving goroutine (lines 42 to 51) has reached: before line 43,
before the call of line 45, inside `ListenAndServe` of a server, before line 48,
or finished. -/
inductive Task where
  | setRunning (port : String)
  | listen
  | serving (srv : Nat)
  | clear
  | done
deriving DecidableEq

/-- The fields of `serverControl` other than the mutex; `server` and `cancelFn`
are `none` for a nil pointer and else the index of the server or of the cancel
function. -/
structure serverControl where
  server : Option Nat
  running : Bool
  cancelFn : Option Nat
deriving DecidableEq

/-- The state of the program around one `serverControl`: every server made so far,
for every cancel function whether it was called, every goroutine spawned, and the
log lines written. -/
structure World where
  sc : serverControl
  servers : List Server
  cancelled : List Bool
  tasks : List Task
  log : List String
deriving DecidableEq

/-- The state after `sc := &serverControl{}`. -/
def World.init : World :=
  { sc := { server := none, running := false, cancelFn := none },
    servers := [], cancelled := [], tasks := [], log := [] }

/-- Go's `serverControl.startServer` (lines 30 to 52); an error is the fatal exit of
`createHandler`. -/
def startServer (env : Env) (w : World) (apiURL port : String) : Except String World :=
  if w.sc.running then
    .ok w
  else
    let cancel := w.cancelled.length
    let sc := { w.sc with cancelFn := some cancel }
    match createHandler env apiURL with
    | .error e => .error e
    | .ok _ =>
      let srv := w.servers.length
      let sc := { sc with server := some srv }
      .ok { sc := sc,
            servers := w.servers ++ [⟨":" ++ port, apiURL, false, false⟩],
            cancelled := w.cancelled ++ [false],
            tasks := w.tasks ++ [Task.setRunning port],
            log := w.log }

/-- Go's `Server.Shutdown` on the server with index `s`: its listener is closed. -/
def shutdown (servers : List Server) (s : Nat) : List Server :=
  match servers[s]? with
  | none => servers
  | some srv => servers.set s { srv with listening := false, inShutdown := true }

/-- Go's `serverControl.stopServer` (lines 54 to 68); an error is a nil dereference. -/
def stopServer (w : World) : Except String World :=
  if !w.sc.running then
    .ok w
  else
    match w.sc.cancelFn, w.sc.server with
    | some cancel, some srv =>
      .ok { sc := { w.sc with running := false },
            servers := shutdown w.servers srv,
            cancelled := w.cancelled.set cancel true,
            tasks := w.tasks,
            log := w.log ++ ["Stopping server..."] }
    | _, _ => .error "invalid memory address or nil pointer dereference"

/-- One step of the goroutine with index `t`, `none` when it has no step to take.
`ListenAndServe` is two steps: the call (it returns at once on a server that was shut
down or whose address is bound, else it binds the listener) and its return after the
server was shut down. -/
def taskStep (w : World) (t : Nat) : Option World :=
  match w.tasks[t]? with
  | some (Task.setRunning port) =>
    some { w with sc := { w.sc with running := true },
                  log := w.log ++ ["Server is starting on :" ++ port],
                  tasks := w.tasks.set t Task.listen }
  | some Task.listen =>
    match w.sc.server with
    | none => none
    | some s =>
      match w.servers[s]? with
      | none => none
      | some srv =>
        if srv.inShutdown then
          some { w with tasks := w.tasks.set t Task.clear }
        else if w.servers.any (fun o => o.listening && o.Addr == srv.Addr) then
          some { w with log := w.log ++ ["Server error: listen tcp " ++ srv.Addr ++
                            ": bind: address already in use"],
                        tasks := w.tasks.set t Task.clear }
        else
          some { w with servers := w.servers.set s { srv with listening := true },
                        tasks := w.tasks.set t (Task.serving s) }
  | some (Task.serving s) =>
    match w.servers[s]? with
    | none => none
    | some srv =>
      if srv.inShutdown then some { w with tasks := w.tasks.set t Task.clear } else none
  | some Task.clear =>
    some { w with sc := { w.sc with running := false }, tasks := w.tasks.set t Task.done }
  | _ => none

/-- The atomic steps: a call of `startServer`, a call of `stopServer`, a step of a goroutine. -/
inductive Action where
  | start (apiURL port : String)
  | stop
  | task (t : Nat)
deriving DecidableEq

/-- One atomic step, `none` when it is not enabled (or ends the process). -/
def step (env : Env) (w : World) : Action → Option World
  | Action.start apiURL port => (startServer env w apiURL port).toOption
  | Action.stop => (stopServer w).toOption
  | Action.task t => taskStep w t

/-- The state after a sequence of atomic steps. -/
def run (env : Env) : World → List Action → Option World
  | w, [] => some w
  | w, a :: rest => (step env w a).bind (fun w' => run env w' rest)

/-- The indices of the servers that hold a bound listener. -/
def liveListeners (w : World) : List Nat :=
  (List.range w.servers.length).filter (fun i => (w.servers[i]?.map Server.listening).getD false)

/-! ## Mocked routes -/

/-- Modelled from the spec: the response record of a mock (status code, headers,
body); its declaration is not among the sources. -/
structure MockResponse where
  StatusCode : Nat
  Headers : List (String × String)
  Body : Bytes
deriving DecidableEq

/-- Modelled from the spec: the `Mock` record read by `MakeMockedRoutes` (path, method,
query constraints, header constraints, response); its declaration is not among the
sources.  The two Go maps are association lists in iteration order. -/
structure Mock where
  Path : String
  Method : String
  Queries : List (String × String)
  Headers : List (String × String)
  Response : MockResponse
deriving DecidableEq

/-- The logger handed through to the mock handlers. -/
abbrev Logger := String

/-- Modelled from the spec: the handler that
`NewMockHandler(WithResponse(response), WithLogger(logger))` makes, a responder that
writes the response of its mock; its code is not among the sources. -/
structure MockHandler where
  response : MockResponse
  logger : Logger
deriving DecidableEq

/-- The options `WithResponse` and `WithLogger` applied by `NewMockHandler`. -/
def NewMockHandler (response : MockResponse) (logger : Logger) : MockHandler :=
  { response := response, logger := logger }

/-- A matcher that a `gorilla/mux` route setter adds to a route. -/
inductive Matcher where
  | path (tpl : String)
  | methods (methods : String)
  | queries (key value : String)
  | headers (key value : String)
deriving DecidableEq

/-- A `mux.Route`: its matchers in the order they were added, and its handler. -/
structure Route where
  matchers : List Matcher
  handler : Option MockHandler
deriving DecidableEq

/-- A `mux.Router`: its routes in registration order. -/
abbrev Router := List Route

/-- The empty route `router.NewRoute()` returns.  `NewRoute` also registers the route
at the end of the router; the setters below work on the route value, and
`MakeMockedRoutes` appends it to the router when it is complete, which gives the same
router. -/
def Route.new : Route := { matchers := [], handler := none }

/-- Go's `route.Path(tpl)`. -/
def Route.Path (route : Route) (tpl : String) : Route :=
  { route with matchers := route.matchers ++ [Matcher.path tpl] }

/-- Go's `route.Methods(methods)`. -/
def Route.Methods (route : Route) (methods : String) : Route :=
  { route with matchers := route.matchers ++ [Matcher.methods methods] }

/-- Go's `route.Queries(key, value)`. -/
def Route.Queries (route : Route) (key value : String) : Route :=
  { route with matchers := route.matchers ++ [Matcher.queries key value] }

/-- Go's `route.Headers(key, value)`. -/
def Route.Headers (route : Route) (key value : String) : Route :=
  { route with matchers := route.matchers ++ [Matcher.headers key value] }

/-- Go's `route.Handler(handler)`. -/
def Route.Handler (route : Route) (handler : MockHandler) : Route :=
  { route with handler := some handler }

/-- Go's `setPath` (lines 37 to 41). -/
def setPath (route : Route) (path : String) : Route :=
  if path.length > 0 then route.Path path else route

/-- Go's `setMethod` (lines 43 to 47). -/
def setMethod (route : Route) (methods : String) : Route :=
  if methods.length > 0 then route.Methods methods else route

/-- Go's `setQueries` (lines 49 to 55). -/
def setQueries (route : Route) (queries : List (String × String)) : Route :=
  if queries.length > 0 then
    queries.foldl (fun route kv => route.Queries kv.1 kv.2) route
  else route

/-- Go's `setHeaders` (lines 57 to 63). -/
def setHeaders (route : Route) (headers : List (String × String)) : Route :=
  if headers.length > 0 then
    headers.foldl (fun route kv => route.Headers kv.1 kv.2) route
  else route

/-- Go's `MakeMockedRoutes` (lines 8 to 35): the first loop registers a route for
every mock with a query, header or method constraint and collects the others in
`defaultMocks`, the second loop registers a route for each of those. -/
def MakeMockedRoutes (router : Router) (logger : Logger) (mocks : List Mock) : Router :=
  let st := mocks.foldl (fun (st : Router × List Mock) mock =>
    if mock.Queries.length > 0 || mock.Headers.length > 0 || mock.Method.length > 0 then
      let route := Route.new
      let route := setPath route mock.Path
      let route := setMethod route mock.Method
      let route := setQueries route mock.Queries
      let route := setHeaders route mock.Headers
      let handler := NewMockHandler mock.Response logger
      (st.1 ++ [route.Handler handler], st.2)
    else
      (st.1, st.2 ++ [mock])) (router, [])
  st.2.foldl (fun router mock =>
    let route := Route.new
    let route := setPath route mock.Path
    let handler := NewMockHandler mock.Response logger
    router ++ [route.Handler handler]) st.1

/-- The routes a call of `MakeMockedRoutes` registers: those after the routes the
router had before. -/
def registered (router : Router) (logger : Logger) (mocks : List Mock) : Router :=
  (MakeMockedRoutes router logger mocks).drop router.length

/-- A route matches a request when each of its matchers does; `sem` is the meaning
`gorilla/mux` gives to a single matcher. -/
def Route.Match {Req : Type} (sem : Matcher → Req → Bool) (route : Route) (req : Req) : Bool :=
  route.matchers.all (fun m => sem m req)

/-- First-match-wins dispatch: the index of the first route, in registration order,
that matches the request. -/
def Router.Match {Req : Type} (sem : Matcher → Req → Bool) : Router → Req → Option Nat
  | [], _ => none
  | route :: rest, req =>
    if route.Match sem req then some 0 else (Router.Match sem rest req).map (· + 1)

/-- The spec's partition test: a mock is discriminated when it has a non-empty method,
a query constraint or a header constraint, and default otherwise. -/
def Mock.isDiscriminated (m : Mock) : Bool :=
  decide (m.Method ≠ "") || !m.Queries.isEmpty || !m.Headers.isEmpty

/-- The spec's matching rule for one mock: the path constraint (none for an empty
path), the method constraint (none for an empty method), every listed query and every
listed header are satisfied. -/
def Mock.matches {Req : Type} (sem : Matcher → Req → Bool) (m : Mock) (req : Req) : Bool :=
  (m.Path = "" || sem (Matcher.path m.Path) req) &&
  (m.Method = "" || sem (Matcher.methods m.Method) req) &&
  m.Queries.all (fun kv => sem (Matcher.queries kv.1 kv.2) req) &&
  m.Headers.all (fun kv => sem (Matcher.headers kv.1 kv.2) req)

/-- The route the first loop of `MakeMockedRoutes` builds for a mock. -/
def discriminatedRoute (logger : Logger) (mock : Mock) : Route :=
  (setHeaders (setQueries (setMethod (setPath Route.new mock.Path) mock.Method)
    mock.Queries) mock.Headers).Handler (NewMockHandler mock.Response logger)

/-- The route the second loop of `MakeMockedRoutes` builds for a mock. -/
def defaultRoute (logger : Logger) (mock : Mock) : Route :=
  (setPath Route.new mock.Path).Handler (NewMockHandler mock.Response logger)

/-! ## A concrete environment for evaluation -/

/-- A URL with the given scheme, host, path and query and nothing else. -/
def mkURL (scheme host path query : String) : URL :=
  { Scheme := scheme, Opaque := "", User := none, Host := host, Path := path, RawPath := "",
    OmitHost := false, ForceQuery := false, RawQuery := query, Fragment := "", RawFragment := "" }

/-- A serialisation of the hierarchical part of a URL. -/
def demoString (u : URL) : String :=
  u.Scheme ++ "://" ++ u.Host ++ u.Path ++ (if u.RawQuery = "" then "" else "?" ++ u.RawQuery)

/-- The URLs the concrete environment knows how to parse. -/
def demoURLs : List URL :=
  [mkURL "http" "up.test" "/base" "k=v", mkURL "http" "up.test" "/items" "a=1",
   mkURL "http" "up.test" "/items" ""]

/-- The inverse of `demoString` on `demoURLs`. -/
def demoParse (s : String) : Option URL := demoURLs.find? (fun u => demoString u == s)

/-- An environment whose upstream answers every request with `resp` and whose
`http.NewRequest` rejects the method `BAD METHOD`. -/
def demoEnv (resp : Except DoError UpstreamResponse) : Env :=
  { urlParse := demoParse,
    urlString := demoString,
    newRequest := fun m s => if m = "BAD METHOD" then none else demoParse s,
    clientDo := fun _ => resp }

/-- The parsed API URL `http://up.test/base?k=v`. -/
def demoAPI : URL := mkURL "http" "up.test" "/base" "k=v"

/-- The request `GET /items?a=1` with an `Origin` and a two-valued `Accept` field. -/
def demoGet : Request :=
  { Method := "GET", URL := mkURL "" "" "/items" "a=1",
    Header := [("Origin", ["http://localhost:3000"]), ("Accept", ["text/html", "text/plain"])],
    Body := [] }

/-- An upstream response that carries its own `Access-Control-Allow-Origin`. -/
def demoResp : UpstreamResponse :=
  { StatusCode := 201,
    Header := [("Content-Type", ["text/plain"]),
               ("Access-Control-Allow-Origin", ["https://example.org"])],
    Body := [[104, 105], [33]] }

/-- The state after two `startServer` calls on port 8764 that both passed the guard,
when the first goroutine serves and the second has failed to bind. -/
def danglingWorld : World :=
  { sc := { server := some 1, running := false, cancelFn := some 1 },
    servers := [⟨":8764", "http://up.test/base?k=v", false, false⟩,
                ⟨":8764", "http://up.test/base?k=v", true, false⟩],
    cancelled := [false, false],
    tasks := [Task.serving 1, Task.done],
    log := ["Server is starting on :8764", "Server is starting on :8764",
            "Server error: listen tcp :8764: bind: address already in use"] }

/-- The state after a further `startServer` on port 9000 whose goroutine serves. -/
def twoListenersWorld : World :=
  { sc := { server := some 2, running := true, cancelFn := some 2 },
    servers := [⟨":8764", "http://up.test/base?k=v", false, false⟩,
                ⟨":8764", "http://up.test/base?k=v", true, false⟩,
                ⟨":9000", "http://up.test/base?k=v", true, false⟩],
    cancelled := [false, false, false],
    tasks := [Task.serving 1, Task.done, Task.serving 2],
    log := ["Server is starting on :8764", "Server is starting on :8764",
            "Server error: listen tcp :8764: bind: address already in use",
            "Server is starting on :9000"] }

/-- The server with index 1 holds a bound listener and was not shut down, and
`stopServer` cannot get at it: while `sc.server` still points to it, `running` is not
set and no goroutine is about to set it. -/
def Dangling (w : World) : Prop :=
  (∃ srv, w.servers[1]? = some srv ∧ srv.listening = true ∧ srv.inShutdown = false) ∧
  (w.sc.server = some 1 → w.sc.running = false ∧ ∀ port, Task.setRunning port ∉ w.tasks) ∧
  (∀ s, w.sc.server = some s → 1 ≤ s)

/-- A matcher semantics for evaluation: exact path, exact method, a raw query that
is the single pair `key=value`, and `Header.Get key` equal to the value. -/
def demoSem (m : Matcher) (r : Request) : Bool :=
  match m with
  | Matcher.path tpl => r.URL.Path == tpl
  | Matcher.methods methods => r.Method == methods
  | Matcher.queries key value => r.URL.RawQuery == key ++ "=" ++ value
  | Matcher.headers key value => r.Header.Get key == value

/-- Both header copy loops of the handler, with the test that skips a key as a parameter. -/
def copyLoop (skip : String → Bool) (src dst : Header) : Header :=
  src.foldl (fun dst kv =>
    if skip kv.1 then dst
    else kv.2.foldl (fun dst value => dst.Add kv.1 value) dst) dst

/-- The request the handler passes to `client.Do` for the incoming request `r`
when `http.NewRequest` made a request with the URL `u`. -/
def builtRequest (r : Request) (u : URL) : UpstreamRequest :=
  { Method := if r.Method = "" then "GET" else r.Method, URL := u,
    Header := copyRequestHeaders r.Header [], Body := r.Body }

/-- The header map of the writer after the three `Set` calls of lines 77 to 79. -/
def corsHeader : Header :=
  Header.Set (Header.Set (Header.Set [] "Access-Control-Allow-Origin" "*")
    "Access-Control-Allow-Methods" "*") "Access-Control-Allow-Headers" "*"

/-- The response `http.Error(w, msg, 500)` sends on a writer that holds the injected headers. -/
def errorResponse (msg : String) : ResponseWriter :=
  httpError { ResponseWriter.new with header := corsHeader } msg 500

/-- The writer after lines 113 to 119 for the upstream response `resp`, on a writer that
holds the injected headers. -/
def relayResponse (resp : UpstreamResponse) : ResponseWriter :=
  let w := { ResponseWriter.new with header := copyResponseHeaders resp.Header corsHeader }
  let w := w.WriteHeader resp.StatusCode
  if w.panic.isSome then w else ioCopy w resp.Body

/-- A status code as `client.Do` returns it: at most three digits, and not an interim
1xx code, which the client consumes itself (101 is returned). -/
def deliveredStatus (code : Nat) : Bool :=
  code ≤ 999 && !(100 ≤ code && code ≤ 199 && code != 101)

/-- An upstream response as `client.Do` returns it: a well-formed header map and a
delivered status code. -/
def UpstreamResponse.Delivered (resp : UpstreamResponse) : Prop :=
  resp.Header.WellFormed ∧ deliveredStatus resp.StatusCode = true

instance (resp : UpstreamResponse) : Decidable resp.Delivered := by
  unfold UpstreamResponse.Delivered; exact inferInstance

/-- An upstream response with the status line `HTTP/1.1 099`, which the client accepts. -/
def demoResp99 : UpstreamResponse :=
  { StatusCode := 99, Header := [("Content-Type", ["text/plain"])], Body := [[104, 105]] }

/-- An upstream response `101 Switching Protocols` whose stream yields two bytes. -/
def demoResp101 : UpstreamResponse :=
  { StatusCode := 101, Header := [("Upgrade", ["websocket"])], Body := [[104, 105]] }

/-! # Theorems -/

/-! ## Header maps -/

theorem Header.values_cons (a : String) (b : List String) (t : Header) (k' : String) :
    Header.values ((a, b) :: t) k' = if k' = a then b else Header.values t k' := by
  by_cases h : k' = a
  · subst h; simp [Header.values, List.lookup]
  · have hb : (k' == a) = false := by simpa using h
    simp [Header.values, List.lookup, hb, h]

theorem Header.values_nil (k' : String) : Header.values [] k' = [] := by
  simp [Header.values, List.lookup]

theorem Header.values_put (h : Header) (k k' : String) (vs : List String) :
    (h.put k vs).values k' = if k' = k then vs else h.values k' := by
  induction h with
  | nil =>
    simp only [Header.put, Header.values_cons, Header.values_nil]
  | cons e t ih =>
    obtain ⟨a, b⟩ := e
    by_cases ha : a = k
    · subst ha
      simp only [Header.put, if_true, Header.values_cons]
      split <;> rfl
    · simp only [Header.put, ha, if_false, Header.values_cons, ih]
      by_cases hk : k' = a
      · have hk2 : ¬ k' = k := by rw [hk]; exact ha
        simp [hk, hk2, ha]
      · simp [hk]

theorem Header.keys_put (h : Header) (k : String) (vs : List String) :
    (h.put k vs).keys = if k ∈ h.keys then h.keys else h.keys ++ [k] := by
  induction h with
  | nil => simp [Header.put, Header.keys]
  | cons e t ih =>
    obtain ⟨a, b⟩ := e
    by_cases ha : a = k
    · simp [Header.put, Header.keys, ha]
    · have hak : ¬ k = a := fun h => ha h.symm
      simp only [Header.keys] at ih
      by_cases hm : k ∈ t.map Prod.fst
      · simp [Header.put, Header.keys, ha, hak, ih, hm]
      · simp [Header.put, Header.keys, ha, hak, ih, hm]

theorem Header.values_eq_nil_of_not_mem (h : Header) (k : String) (hk : k ∉ h.keys) :
    h.values k = [] := by
  induction h with
  | nil => exact Header.values_nil k
  | cons e t ih =>
    obtain ⟨a, b⟩ := e
    simp only [Header.keys, List.map_cons, List.mem_cons, not_or] at hk
    rw [Header.values_cons, if_neg hk.1]
    exact ih hk.2

theorem Header.values_Add (h : Header) (key v k' : String) :
    (h.Add key v).values k' =
      if k' = CanonicalMIMEHeaderKey key then h.values k' ++ [v] else h.values k' := by
  simp only [Header.Add, Header.values_put]
  split
  · next hk => rw [hk]
  · rfl

theorem Header.mem_keys_Add (h : Header) (key v k' : String) (hk : k' ∈ (h.Add key v).keys) :
    k' ∈ h.keys ∨ k' = CanonicalMIMEHeaderKey key := by
  simp only [Header.Add, Header.keys_put] at hk
  split at hk
  · exact Or.inl hk
  · simpa using hk

theorem Header.values_Set (h : Header) (key v k' : String) :
    (h.Set key v).values k' =
      if k' = CanonicalMIMEHeaderKey key then [v] else h.values k' := by
  simp only [Header.Set, Header.values_put]

/-- The values under every key after the inner loop `for _, value := range values`. -/
theorem Header.values_addAll (key : String) (vs : List String) (dst : Header) (k' : String) :
    (vs.foldl (fun dst value => Header.Add dst key value) dst).values k' =
      if k' = CanonicalMIMEHeaderKey key then dst.values k' ++ vs else dst.values k' := by
  induction vs generalizing dst with
  | nil => simp
  | cons v t ih =>
    simp only [List.foldl_cons, ih, Header.values_Add]
    split <;> simp

theorem Header.mem_keys_addAll (key : String) (vs : List String) (dst : Header) (k' : String)
    (hk : k' ∈ (vs.foldl (fun dst value => Header.Add dst key value) dst).keys) :
    k' ∈ dst.keys ∨ k' = CanonicalMIMEHeaderKey key := by
  induction vs generalizing dst with
  | nil => exact Or.inl hk
  | cons v t ih =>
    rcases ih _ hk with h | h
    · exact Header.mem_keys_Add dst key v k' h
    · exact Or.inr h

theorem copyRequestHeaders_eq (src dst : Header) :
    copyRequestHeaders src dst = copyLoop (fun k => EqualFold k "Origin") src dst := rfl

theorem copyResponseHeaders_eq (src dst : Header) :
    copyResponseHeaders src dst = copyLoop (fun _ => false) src dst := by
  simp [copyResponseHeaders, copyLoop]

theorem values_copyLoop (skip : String → Bool) (src : Header) (hwf : src.WellFormed)
    (dst : Header) (k' : String) :
    (copyLoop skip src dst).values k' =
      dst.values k' ++ (if skip k' then [] else src.values k') := by
  induction src generalizing dst with
  | nil => simp [copyLoop, Header.values_nil]
  | cons e t ih =>
    obtain ⟨a, b⟩ := e
    obtain ⟨hnd, hcan⟩ := hwf
    simp only [Header.keys, List.map_cons, List.nodup_cons] at hnd
    have hcana : CanonicalMIMEHeaderKey a = a := hcan a (by simp [Header.keys])
    have hwft : Header.WellFormed t :=
      ⟨hnd.2, fun k hk => hcan k (by simp only [Header.keys, List.map_cons, List.mem_cons]; exact Or.inr hk)⟩
    have hta : Header.values t a = [] := Header.values_eq_nil_of_not_mem t a hnd.1
    have hstep : ∀ d, copyLoop skip ((a, b) :: t) d =
        copyLoop skip t (if skip a then d else b.foldl (fun dst value => Header.Add dst a value) d) := by
      intro d; simp [copyLoop]
    rw [hstep, ih hwft, Header.values_cons]
    by_cases hs : skip a = true
    · simp only [hs, if_true]
      by_cases hk : k' = a
      · subst hk; simp [hs]
      · simp [hk]
    · rw [if_neg hs]
      simp only [Header.values_addAll, hcana]
      by_cases hk : k' = a
      · subst hk; simp [hs, hta]
      · simp [hk]

theorem mem_keys_copyLoop (skip : String → Bool) (src : Header)
    (hcan : ∀ k ∈ src.keys, CanonicalMIMEHeaderKey k = k) (dst : Header) (k' : String)
    (hk : k' ∈ (copyLoop skip src dst).keys) :
    k' ∈ dst.keys ∨ (k' ∈ src.keys ∧ skip k' = false) := by
  induction src generalizing dst with
  | nil => exact Or.inl hk
  | cons e t ih =>
    obtain ⟨a, b⟩ := e
    have hcana : CanonicalMIMEHeaderKey a = a := hcan a (by simp [Header.keys])
    have hcant : ∀ k ∈ Header.keys t, CanonicalMIMEHeaderKey k = k :=
      fun k hk => hcan k (by simp only [Header.keys, List.map_cons, List.mem_cons]; exact Or.inr hk)
    have hstep : ∀ d, copyLoop skip ((a, b) :: t) d =
        copyLoop skip t (if skip a then d else b.foldl (fun dst value => Header.Add dst a value) d) := by
      intro d; simp [copyLoop]
    rw [hstep] at hk
    rcases ih hcant _ hk with h | ⟨h, hs⟩
    · by_cases hsa : skip a = true
      · simp only [hsa, if_true] at h; exact Or.inl h
      · rw [if_neg hsa] at h
        rcases Header.mem_keys_addAll a b dst k' h with h' | h'
        · exact Or.inl h'
        · right
          rw [hcana] at h'
          subst h'
          exact ⟨by simp [Header.keys], by simpa using hsa⟩
    · exact Or.inr ⟨by simp only [Header.keys, List.map_cons, List.mem_cons]; exact Or.inr h, hs⟩

theorem head_values_copyLoop (skip : String → Bool) (src dst : Header) (k' x : String)
    (hx : (dst.values k').head? = some x) :
    ((copyLoop skip src dst).values k').head? = some x := by
  induction src generalizing dst with
  | nil => exact hx
  | cons e t ih =>
    obtain ⟨a, b⟩ := e
    have hstep : ∀ d, copyLoop skip ((a, b) :: t) d =
        copyLoop skip t (if skip a then d else b.foldl (fun dst value => Header.Add dst a value) d) := by
      intro d; simp [copyLoop]
    rw [hstep]
    apply ih
    by_cases hsa : skip a = true
    · simpa [hsa] using hx
    · rw [if_neg hsa]
      simp only [Header.values_addAll]
      split
      · cases hv : Header.values dst k' with
        | nil => rw [hv] at hx; simp at hx
        | cons y ys => rw [hv] at hx; simpa using hx
      · exact hx

/-- A delivered status code of at least 100 is 101 or lies from 200 to 999. -/
theorem final_of_delivered (code : Nat) (hd : deliveredStatus code = true) (hc : 100 ≤ code) :
    code = 101 ∨ (200 ≤ code ∧ code ≤ 999) := by
  simp only [deliveredStatus, Bool.and_eq_true, decide_eq_true_eq, Bool.not_eq_true',
    Bool.and_eq_false_imp, bne_eq_false_iff_eq] at hd
  obtain ⟨h1, h2⟩ := hd
  by_cases h : code ≤ 199
  · exact Or.inl (h2 ⟨hc, h⟩)
  · exact Or.inr ⟨by omega, h1⟩

/-- On a writer without status, a code that is 101 or from 200 to 999 becomes the final
status and the current header map is sent with it. -/
theorem WriteHeader_final (w : ResponseWriter) (code : Nat) (hs : w.status = none)
    (hc : code = 101 ∨ (200 ≤ code ∧ code ≤ 999)) :
    w.WriteHeader code = { w with status := some code, sentHeader := w.header } := by
  unfold ResponseWriter.WriteHeader
  rw [hs]
  have h1 : ¬ (code < 100 ∨ 999 < code) := by omega
  have h2 : ¬ (100 ≤ code ∧ code ≤ 199 ∧ code ≠ 101) := by omega
  simp only [h1, h2, if_false]

/-- On a writer without status, a code below 100 or above 999 panics and sends nothing. -/
theorem WriteHeader_panics (w : ResponseWriter) (code : Nat) (hs : w.status = none)
    (hc : code < 100 ∨ 999 < code) :
    w.WriteHeader code = { w with panic := some "invalid WriteHeader code" } := by
  unfold ResponseWriter.WriteHeader
  rw [hs]
  simp only [hc, if_true]

/-- After a final status `io.Copy` appends the whole body when the status allows one,
and nothing otherwise. -/
theorem ioCopy_sent (w : ResponseWriter) (code : Nat) (hs : w.status = some code)
    (chunks : List Bytes) :
    ioCopy w chunks =
      { w with body := w.body ++ (if bodyAllowedForStatus code then chunks.flatten else []) } := by
  induction chunks generalizing w with
  | nil => simp [ioCopy]
  | cons c cs ih =>
    by_cases hc : c.isEmpty = true
    · have hnil : c = [] := by simpa using hc
      have : ioCopy w (c :: cs) = ioCopy w cs := by simp [ioCopy, hc]
      rw [this, ih w hs, hnil]
      simp
    · by_cases hb : bodyAllowedForStatus code = true
      · have h1 : ResponseWriter.Write w c = ({ w with body := w.body ++ c }, true) := by
          simp [ResponseWriter.Write, hs, hc, hb]
        have : ioCopy w (c :: cs) = ioCopy { w with body := w.body ++ c } cs := by
          simp [ioCopy, hc, h1]
        rw [this, ih _ (show ResponseWriter.status { w with body := w.body ++ c } = some code
          from hs)]
        simp [hb, List.append_assoc]
      · have h1 : ResponseWriter.Write w c = (w, false) := by
          simp [ResponseWriter.Write, hs, hc, hb]
        have : ioCopy w (c :: cs) = w := by
          simp [ioCopy, hc, h1]
        rw [this]
        simp [hb]

/-- The relay of an upstream response whose status code is 101 or from 200 to 999. -/
theorem relayResponse_final (resp : UpstreamResponse)
    (hc : resp.StatusCode = 101 ∨ (200 ≤ resp.StatusCode ∧ resp.StatusCode ≤ 999)) :
    relayResponse resp =
      { header := copyResponseHeaders resp.Header corsHeader,
        status := some resp.StatusCode,
        sentHeader := copyResponseHeaders resp.Header corsHeader,
        body := if bodyAllowedForStatus resp.StatusCode then resp.Body.flatten else [],
        informational := [], panic := none } := by
  unfold relayResponse
  simp only []
  rw [WriteHeader_final _ _ rfl hc]
  simp only [ResponseWriter.new, Option.isSome_none, Bool.false_eq_true, if_false]
  rw [ioCopy_sent _ resp.StatusCode rfl]
  simp

/-- The relay of an upstream response whose status code `WriteHeader` rejects. -/
theorem relayResponse_panics (resp : UpstreamResponse)
    (hc : resp.StatusCode < 100 ∨ 999 < resp.StatusCode) :
    relayResponse resp =
      { header := copyResponseHeaders resp.Header corsHeader,
        status := none, sentHeader := [], body := [], informational := [],
        panic := some "invalid WriteHeader code" } := by
  unfold relayResponse
  simp only []
  rw [WriteHeader_panics _ _ rfl hc]
  simp [ResponseWriter.new]

/-! ## The runs of the handler -/

theorem createHandler_ok (env : Env) (apiURL : String) (h : Request → Outcome)
    (hh : createHandler env apiURL = .ok h) :
    ∃ api, env.urlParse apiURL = some api ∧ h = handler env api := by
  unfold createHandler at hh
  cases hp : env.urlParse apiURL with
  | none => rw [hp] at hh; cases hh
  | some api =>
    rw [hp] at hh
    refine ⟨api, rfl, ?_⟩
    cases hh
    rfl

theorem handler_options (env : Env) (api : URL) (r : Request) (hm : r.Method = "OPTIONS") :
    handler env api r =
      ⟨⟨corsHeader, some 200, corsHeader, [], [], none⟩, [], [], false⟩ := by
  unfold handler
  simp only [hm, if_true]
  rfl

theorem handler_build_fails (env : Env) (api : URL) (r : Request) (hm : r.Method ≠ "OPTIONS")
    (hnew : env.newRequest r.Method (env.urlString (targetURL api r)) = none) :
    handler env api r =
      ⟨errorResponse "Failed to create request",
        [(r.Method, env.urlString (targetURL api r))], [], false⟩ := by
  unfold handler
  simp only [hm, if_false, NewRequest, hnew]
  rfl

theorem handler_call_fails (env : Env) (api : URL) (r : Request) (hm : r.Method ≠ "OPTIONS")
    (u : URL) (hnew : env.newRequest r.Method (env.urlString (targetURL api r)) = some u)
    (e : DoError) (hdo : env.clientDo (builtRequest r u) = .error e) :
    handler env api r =
      ⟨errorResponse "Failed to make request to target URL",
        [(r.Method, env.urlString (targetURL api r))], [builtRequest r u], false⟩ := by
  unfold builtRequest at hdo
  unfold handler
  simp only [hm, if_false, NewRequest, hnew, hdo]
  rfl

theorem handler_relays (env : Env) (api : URL) (r : Request) (hm : r.Method ≠ "OPTIONS")
    (u : URL) (hnew : env.newRequest r.Method (env.urlString (targetURL api r)) = some u)
    (resp : UpstreamResponse) (hdo : env.clientDo (builtRequest r u) = .ok resp) :
    handler env api r =
      ⟨relayResponse resp,
        [(r.Method, env.urlString (targetURL api r))], [builtRequest r u], true⟩ := by
  unfold builtRequest at hdo
  unfold handler
  simp only [hm, if_false, NewRequest, hnew, hdo]
  rfl

/-- The four ways a run of the handler can go. -/
theorem handler_cases (env : Env) (api : URL) (r : Request) :
    (r.Method = "OPTIONS" ∧
      handler env api r =
        ⟨⟨corsHeader, some 200, corsHeader, [], [], none⟩, [], [], false⟩) ∨
    (r.Method ≠ "OPTIONS" ∧
      env.newRequest r.Method (env.urlString (targetURL api r)) = none ∧
      handler env api r =
        ⟨errorResponse "Failed to create request",
          [(r.Method, env.urlString (targetURL api r))], [], false⟩) ∨
    (r.Method ≠ "OPTIONS" ∧ ∃ u e,
      env.newRequest r.Method (env.urlString (targetURL api r)) = some u ∧
      env.clientDo (builtRequest r u) = .error e ∧
      handler env api r =
        ⟨errorResponse "Failed to make request to target URL",
          [(r.Method, env.urlString (targetURL api r))], [builtRequest r u], false⟩) ∨
    (r.Method ≠ "OPTIONS" ∧ ∃ u resp,
      env.newRequest r.Method (env.urlString (targetURL api r)) = some u ∧
      env.clientDo (builtRequest r u) = .ok resp ∧
      handler env api r =
        ⟨relayResponse resp,
          [(r.Method, env.urlString (targetURL api r))], [builtRequest r u], true⟩) := by
  by_cases hm : r.Method = "OPTIONS"
  · exact Or.inl ⟨hm, handler_options env api r hm⟩
  · right
    cases hnew : env.newRequest r.Method (env.urlString (targetURL api r)) with
    | none => exact Or.inl ⟨hm, rfl, handler_build_fails env api r hm hnew⟩
    | some u =>
      right
      cases hdo : env.clientDo (builtRequest r u) with
      | error e => exact Or.inl ⟨hm, u, e, rfl, hdo, handler_call_fails env api r hm u hnew e hdo⟩
      | ok resp => exact Or.inr ⟨hm, u, resp, rfl, hdo, handler_relays env api r hm u hnew resp hdo⟩

/-! ## Claims about `createHandler` -/

/-- C2: for a request whose method is `OPTIONS`, the handler built by `createHandler`
writes status 200, writes no body byte, and neither constructs nor sends an
upstream request. -/
theorem options_preflight_short_circuit (env : Env) (apiURL : String) (h : Request → Outcome)
    (r : Request) (hh : createHandler env apiURL = .ok h) (hm : r.Method = "OPTIONS") :
    (h r).w.status = some 200 ∧ (h r).w.body = [] ∧ (h r).built = [] ∧ (h r).sent = [] := by
  obtain ⟨api, -, rfl⟩ := createHandler_ok env apiURL h hh
  rw [handler_options env api r hm]
  exact ⟨rfl, rfl, rfl, rfl⟩

theorem options_preflight_short_circuit_witness :
    (handler (demoEnv (.ok demoResp)) demoAPI { demoGet with Method := "OPTIONS" }).w.status
        = some 200 ∧
      (handler (demoEnv (.ok demoResp)) demoAPI { demoGet with Method := "OPTIONS" }).w.body = [] ∧
      (handler (demoEnv (.ok demoResp)) demoAPI { demoGet with Method := "OPTIONS" }).built = [] ∧
      (handler (demoEnv (.ok demoResp)) demoAPI { demoGet with Method := "OPTIONS" }).sent = [] :=
  options_preflight_short_circuit (demoEnv (.ok demoResp)) "http://up.test/base?k=v"
    (handler (demoEnv (.ok demoResp)) demoAPI) { demoGet with Method := "OPTIONS" }
    (by rfl) (by rfl)

/-- C3: every upstream request the handler passes to `client.Do` is the only one of
that run, has no field whose name equals `Origin` case-insensitively, and under every
other name has exactly the values of the incoming request, in their order.  The
incoming header map is one `net/http` delivers: no key twice, keys canonical. -/
theorem upstream_headers_are_incoming_minus_origin (env : Env) (apiURL : String)
    (h : Request → Outcome) (r : Request) (req : UpstreamRequest)
    (hh : createHandler env apiURL = .ok h) (hwf : r.Header.WellFormed)
    (hreq : req ∈ (h r).sent) :
    (h r).sent = [req] ∧
      (∀ k ∈ req.Header.keys, EqualFold k "Origin" = false) ∧
      (∀ k, EqualFold k "Origin" = true → k ∉ req.Header.keys ∧ req.Header.values k = []) ∧
      (∀ k, EqualFold k "Origin" = false → req.Header.values k = r.Header.values k) := by
  obtain ⟨api, -, rfl⟩ := createHandler_ok env apiURL h hh
  have hkeys : ∀ u, ∀ k ∈ (builtRequest r u).Header.keys, EqualFold k "Origin" = false := by
    intro u k hk
    simp only [builtRequest, copyRequestHeaders_eq] at hk
    rcases mem_keys_copyLoop _ r.Header hwf.2 [] k hk with h' | h'
    · simp [Header.keys] at h'
    · exact h'.2
  have hvals : ∀ u k, (builtRequest r u).Header.values k =
      if EqualFold k "Origin" then [] else r.Header.values k := by
    intro u k
    simp only [builtRequest, copyRequestHeaders_eq]
    rw [values_copyLoop _ r.Header hwf, Header.values_nil, List.nil_append]
  have hall : ∀ u, req = builtRequest r u →
      (∀ k ∈ req.Header.keys, EqualFold k "Origin" = false) ∧
      (∀ k, EqualFold k "Origin" = true → k ∉ req.Header.keys ∧ req.Header.values k = []) ∧
      (∀ k, EqualFold k "Origin" = false → req.Header.values k = r.Header.values k) := by
    intro u hu
    subst hu
    refine ⟨hkeys u, ?_, ?_⟩
    · intro k hk
      refine ⟨fun hmem => ?_, ?_⟩
      · have := hkeys u k hmem
        rw [hk] at this
        cases this
      · rw [hvals, if_pos hk]
    · intro k hk
      rw [hvals]
      simp [hk]
  rcases handler_cases env api r with ⟨-, he⟩ | ⟨-, -, he⟩ | ⟨-, u, e, -, -, he⟩ |
      ⟨-, u, resp, -, -, he⟩
  · rw [he] at hreq; cases hreq
  · rw [he] at hreq; cases hreq
  · rw [he] at hreq ⊢
    have hu : req = builtRequest r u := by simpa using hreq
    exact ⟨by rw [hu], hall u hu⟩
  · rw [he] at hreq ⊢
    have hu : req = builtRequest r u := by simpa using hreq
    exact ⟨by rw [hu], hall u hu⟩

theorem upstream_headers_are_incoming_minus_origin_witness :
    (handler (demoEnv (.ok demoResp)) demoAPI demoGet).sent =
        [builtRequest demoGet (mkURL "http" "up.test" "/items" "a=1")] ∧
      (builtRequest demoGet (mkURL "http" "up.test" "/items" "a=1")).Header
        = [("Accept", ["text/html", "text/plain"])] ∧
      (∀ k, EqualFold k "Origin" = false →
        (builtRequest demoGet (mkURL "http" "up.test" "/items" "a=1")).Header.values k =
          demoGet.Header.values k) :=
  ⟨(upstream_headers_are_incoming_minus_origin (demoEnv (.ok demoResp))
      "http://up.test/base?k=v" (handler (demoEnv (.ok demoResp)) demoAPI) demoGet
      (builtRequest demoGet (mkURL "http" "up.test" "/items" "a=1"))
      (by rfl) (by decide) (by decide)).1,
    by decide,
   (upstream_headers_are_incoming_minus_origin (demoEnv (.ok demoResp))
      "http://up.test/base?k=v" (handler (demoEnv (.ok demoResp)) demoAPI) demoGet
      (builtRequest demoGet (mkURL "http" "up.test" "/items" "a=1"))
      (by rfl) (by decide) (by decide)).2.2.2⟩

theorem values_corsHeader (k : String) :
    corsHeader.values k = if k ∈ corsNames then ["*"] else [] := by
  simp only [corsHeader, Header.values_Set, Header.values_nil]
  have h1 : CanonicalMIMEHeaderKey "Access-Control-Allow-Origin" = "Access-Control-Allow-Origin" := by
    decide
  have h2 : CanonicalMIMEHeaderKey "Access-Control-Allow-Methods" = "Access-Control-Allow-Methods" := by
    decide
  have h3 : CanonicalMIMEHeaderKey "Access-Control-Allow-Headers" = "Access-Control-Allow-Headers" := by
    decide
  rw [h1, h2, h3]
  by_cases ha : k = "Access-Control-Allow-Origin"
  · subst ha; decide
  · by_cases hb : k = "Access-Control-Allow-Methods"
    · subst hb; decide
    · by_cases hc : k = "Access-Control-Allow-Headers"
      · subst hc; decide
      · simp [corsNames, ha, hb, hc]

/-- C4, as the code has it: for a successful upstream response as `client.Do` returns it
whose status code is at least 100 (one `WriteHeader` accepts), the response written has
the upstream status code; its body is the upstream body byte for byte when that status
allows a body, and empty after 101, 204 and 304; under every header name other than the
three injected `Access-Control-Allow-*` names it has exactly the upstream values; and
under each of those three names it has the injected `*` followed by the upstream values
for that name. -/
theorem relay_equals_upstream_except_cors (env : Env) (apiURL : String)
    (h : Request → Outcome) (r : Request) (req : UpstreamRequest) (resp : UpstreamResponse)
    (hh : createHandler env apiURL = .ok h) (hreq : req ∈ (h r).sent)
    (hdo : env.clientDo req = .ok resp) (hdel : resp.Delivered)
    (hcode : 100 ≤ resp.StatusCode) :
    (h r).w.panic = none ∧
      (h r).w.status = some resp.StatusCode ∧
      (h r).w.body = (if bodyAllowedForStatus resp.StatusCode then resp.Body.flatten else []) ∧
      (∀ k, k ∉ corsNames → (h r).w.sentHeader.values k = resp.Header.values k) ∧
      (∀ k ∈ corsNames, (h r).w.sentHeader.values k = "*" :: resp.Header.values k) := by
  obtain ⟨api, -, rfl⟩ := createHandler_ok env apiURL h hh
  obtain ⟨hwf, hst⟩ := hdel
  have hfin := final_of_delivered resp.StatusCode hst hcode
  rcases handler_cases env api r with ⟨-, he⟩ | ⟨-, -, he⟩ | ⟨-, u, e, -, hdo', he⟩ |
      ⟨-, u, resp', -, hdo', he⟩
  · rw [he] at hreq; cases hreq
  · rw [he] at hreq; cases hreq
  · rw [he] at hreq
    have hu : req = builtRequest r u := by simpa using hreq
    rw [hu, hdo'] at hdo
    cases hdo
  · rw [he] at hreq
    have hu : req = builtRequest r u := by simpa using hreq
    rw [hu, hdo'] at hdo
    cases hdo
    rw [he, relayResponse_final resp hfin]
    refine ⟨rfl, rfl, rfl, ?_, ?_⟩
    · intro k hk
      show (copyResponseHeaders resp.Header corsHeader).values k = _
      rw [copyResponseHeaders_eq, values_copyLoop _ resp.Header hwf, values_corsHeader, if_neg hk]
      simp
    · intro k hk
      show (copyResponseHeaders resp.Header corsHeader).values k = _
      rw [copyResponseHeaders_eq, values_copyLoop _ resp.Header hwf, values_corsHeader, if_pos hk]
      simp

theorem relay_equals_upstream_except_cors_witness :
    (handler (demoEnv (.ok demoResp)) demoAPI demoGet).w.panic = none ∧
      (handler (demoEnv (.ok demoResp)) demoAPI demoGet).w.status = some 201 ∧
      (handler (demoEnv (.ok demoResp)) demoAPI demoGet).w.body =
        (if bodyAllowedForStatus 201 then [104, 105, 33] else []) ∧
      (∀ k, k ∉ corsNames →
        (handler (demoEnv (.ok demoResp)) demoAPI demoGet).w.sentHeader.values k =
          demoResp.Header.values k) ∧
      (∀ k ∈ corsNames,
        (handler (demoEnv (.ok demoResp)) demoAPI demoGet).w.sentHeader.values k =
          "*" :: demoResp.Header.values k) :=
  relay_equals_upstream_except_cors (demoEnv (.ok demoResp)) "http://up.test/base?k=v"
    (handler (demoEnv (.ok demoResp)) demoAPI) demoGet
    (builtRequest demoGet (mkURL "http" "up.test" "/items" "a=1")) demoResp
    (by rfl) (by decide) (by rfl) (by decide) (by decide)

/-- C4 as stated fails in three ways.  An upstream that answers 201 with a well-formed
header map carrying `Access-Control-Allow-Origin: https://example.org`: the response
written has the two values `*` and `https://example.org` under that name, and the value
`*` under `Access-Control-Allow-Methods`, which the upstream did not send.  An upstream
that answers with status 99: `WriteHeader` panics, no status and no body byte is
written.  An upstream that answers 101 with a stream of two bytes: status 101 is written
and no body byte. -/
theorem relay_differs_from_upstream :
    (createHandler (demoEnv (.ok demoResp)) "http://up.test/base?k=v" =
        .ok (handler (demoEnv (.ok demoResp)) demoAPI) ∧
      (demoEnv (.ok demoResp)).clientDo
        (builtRequest demoGet (mkURL "http" "up.test" "/items" "a=1")) = .ok demoResp ∧
      demoResp.Delivered ∧
      (handler (demoEnv (.ok demoResp)) demoAPI demoGet).w.sentHeader.values
        "Access-Control-Allow-Origin" = ["*", "https://example.org"] ∧
      (handler (demoEnv (.ok demoResp)) demoAPI demoGet).w.sentHeader.values
        "Access-Control-Allow-Methods" = ["*"] ∧
      demoResp.Header.values "Access-Control-Allow-Methods" = [] ∧
      ¬ (∀ k, (handler (demoEnv (.ok demoResp)) demoAPI demoGet).w.sentHeader.values k =
          demoResp.Header.values k)) ∧
    (createHandler (demoEnv (.ok demoResp99)) "http://up.test/base?k=v" =
        .ok (handler (demoEnv (.ok demoResp99)) demoAPI) ∧
      (demoEnv (.ok demoResp99)).clientDo
        (builtRequest demoGet (mkURL "http" "up.test" "/items" "a=1")) = .ok demoResp99 ∧
      demoResp99.Delivered ∧
      (handler (demoEnv (.ok demoResp99)) demoAPI demoGet).w.panic =
        some "invalid WriteHeader code" ∧
      (handler (demoEnv (.ok demoResp99)) demoAPI demoGet).w.body = [] ∧
      ¬ ((handler (demoEnv (.ok demoResp99)) demoAPI demoGet).w.status =
          some demoResp99.StatusCode)) ∧
    (createHandler (demoEnv (.ok demoResp101)) "http://up.test/base?k=v" =
        .ok (handler (demoEnv (.ok demoResp101)) demoAPI) ∧
      (demoEnv (.ok demoResp101)).clientDo
        (builtRequest demoGet (mkURL "http" "up.test" "/items" "a=1")) = .ok demoResp101 ∧
      demoResp101.Delivered ∧
      (handler (demoEnv (.ok demoResp101)) demoAPI demoGet).w.status = some 101 ∧
      demoResp101.Body.flatten = [104, 105] ∧
      ¬ ((handler (demoEnv (.ok demoResp101)) demoAPI demoGet).w.body =
          demoResp101.Body.flatten)) := by
  refine ⟨⟨by rfl, by rfl, by decide, by decide, by decide, by decide, ?_⟩,
    ⟨by rfl, by rfl, by decide, by decide, by decide, by decide⟩,
    ⟨by rfl, by rfl, by decide, by decide, by decide, by decide⟩⟩
  intro hall
  have := hall "Access-Control-Allow-Origin"
  revert this
  decide

/-- The response `http.Error` leaves on a writer that holds the injected headers. -/
theorem errorResponse_eq (msg : String) :
    errorResponse msg =
      ⟨[("Access-Control-Allow-Origin", ["*"]), ("Access-Control-Allow-Methods", ["*"]),
        ("Access-Control-Allow-Headers", ["*"]), ("Content-Type", ["text/plain; charset=utf-8"]),
        ("X-Content-Type-Options", ["nosniff"])], some 500,
       [("Access-Control-Allow-Origin", ["*"]), ("Access-Control-Allow-Methods", ["*"]),
        ("Access-Control-Allow-Headers", ["*"]), ("Content-Type", ["text/plain; charset=utf-8"]),
        ("X-Content-Type-Options", ["nosniff"])], bytesOf (msg ++ "\n"), [], none⟩ := by
  have hh : Header.Set (Header.Set (Header.Del corsHeader "Content-Length") "Content-Type"
      "text/plain; charset=utf-8") "X-Content-Type-Options" "nosniff" =
      [("Access-Control-Allow-Origin", ["*"]), ("Access-Control-Allow-Methods", ["*"]),
        ("Access-Control-Allow-Headers", ["*"]), ("Content-Type", ["text/plain; charset=utf-8"]),
        ("X-Content-Type-Options", ["nosniff"])] := by decide
  have hne : (bytesOf (msg ++ "\n")).isEmpty = false := by
    simp [bytesOf]
  unfold errorResponse httpError
  simp only [ResponseWriter.new, hh]
  rw [WriteHeader_final _ 500 rfl (Or.inr ⟨by decide, by decide⟩)]
  simp [ResponseWriter.Write, hne, bodyAllowedForStatus]

/-- C5, as the code has it: in every run of the handler that gets as far as writing a
status (the preflight, a failure to build the upstream request, a failure of the upstream
call, and the relay of an upstream response with any headers whose status code, as
`client.Do` returns it, is at least 100), a status is written without a panic and the
headers sent with it hold, under each of `Access-Control-Allow-Origin`,
`Access-Control-Allow-Methods` and `Access-Control-Allow-Headers`, the value `*`, which
is also what `Header.Get` returns for that name. -/
theorem cors_headers_sent_with_every_status (env : Env) (apiURL : String)
    (h : Request → Outcome) (r : Request) (hh : createHandler env apiURL = .ok h)
    (hcode : ∀ req ∈ (h r).sent, ∀ resp, env.clientDo req = .ok resp →
      deliveredStatus resp.StatusCode = true ∧ 100 ≤ resp.StatusCode) :
    (h r).w.panic = none ∧ (h r).w.status ≠ none ∧
      ∀ name ∈ corsNames,
        "*" ∈ (h r).w.sentHeader.values name ∧ (h r).w.sentHeader.Get name = "*" := by
  obtain ⟨api, -, rfl⟩ := createHandler_ok env apiURL h hh
  have hfix : ∀ (hd : Header), (∀ name ∈ corsNames, (hd.values name).head? = some "*") →
      ∀ name ∈ corsNames, "*" ∈ hd.values name ∧ hd.Get name = "*" := by
    intro hd hhd name hname
    have hc : CanonicalMIMEHeaderKey name = name := by
      revert name; decide
    have := hhd name hname
    refine ⟨List.mem_of_mem_head? this, ?_⟩
    simp [Header.Get, hc, this]
  rcases handler_cases env api r with ⟨-, he⟩ | ⟨-, -, he⟩ | ⟨-, u, e, -, -, he⟩ |
      ⟨-, u, resp, -, hdo, he⟩
  · rw [he]
    exact ⟨rfl, by simp, hfix _ (by decide)⟩
  · rw [he, errorResponse_eq]
    exact ⟨rfl, by simp, hfix _ (by simp only []; decide)⟩
  · rw [he, errorResponse_eq]
    exact ⟨rfl, by simp, hfix _ (by simp only []; decide)⟩
  · obtain ⟨hst, hc⟩ := hcode (builtRequest r u) (by rw [he]; simp) resp hdo
    rw [he, relayResponse_final resp (final_of_delivered _ hst hc)]
    refine ⟨rfl, by simp, hfix _ ?_⟩
    intro name hname
    show ((copyResponseHeaders resp.Header corsHeader).values name).head? = _
    rw [copyResponseHeaders_eq]
    apply head_values_copyLoop
    rw [values_corsHeader, if_pos hname]
    rfl

theorem cors_headers_sent_with_every_status_witness :
    (handler (demoEnv (.ok demoResp)) demoAPI demoGet).w.panic = none ∧
      (handler (demoEnv (.ok demoResp)) demoAPI demoGet).w.status ≠ none ∧
      ∀ name ∈ corsNames,
        "*" ∈ (handler (demoEnv (.ok demoResp)) demoAPI demoGet).w.sentHeader.values name ∧
        (handler (demoEnv (.ok demoResp)) demoAPI demoGet).w.sentHeader.Get name = "*" :=
  cors_headers_sent_with_every_status (demoEnv (.ok demoResp)) "http://up.test/base?k=v"
    (handler (demoEnv (.ok demoResp)) demoAPI) demoGet (by rfl)
    (by
      intro req _ resp hdo
      have : resp = demoResp := by
        simp only [demoEnv, Except.ok.injEq] at hdo
        exact hdo.symm
      subst this
      decide)

/-- C5 as stated fails: an upstream that answers with status 99 and a well-formed header
map makes `WriteHeader` panic at line 118, so the run ends with no status written and no
header sent, the three `Access-Control-Allow-*` headers included. -/
theorem no_cors_header_when_status_rejected :
    createHandler (demoEnv (.ok demoResp99)) "http://up.test/base?k=v" =
        .ok (handler (demoEnv (.ok demoResp99)) demoAPI) ∧
      (demoEnv (.ok demoResp99)).clientDo
        (builtRequest demoGet (mkURL "http" "up.test" "/items" "a=1")) = .ok demoResp99 ∧
      demoResp99.Delivered ∧
      (handler (demoEnv (.ok demoResp99)) demoAPI demoGet).sent =
        [builtRequest demoGet (mkURL "http" "up.test" "/items" "a=1")] ∧
      (handler (demoEnv (.ok demoResp99)) demoAPI demoGet).w.status = none ∧
      (handler (demoEnv (.ok demoResp99)) demoAPI demoGet).w.sentHeader = [] ∧
      (handler (demoEnv (.ok demoResp99)) demoAPI demoGet).w.informational = [] ∧
      ¬ (∀ name ∈ corsNames,
          "*" ∈ (handler (demoEnv (.ok demoResp99)) demoAPI demoGet).w.sentHeader.values name) := by
  refine ⟨by rfl, by rfl, by decide, by decide, by decide, by decide, by decide, ?_⟩
  intro hall
  have := hall "Access-Control-Allow-Origin" (by decide)
  revert this
  decide

/-- C8: for a non-`OPTIONS` request the handler calls `http.NewRequest` once, with the
request method and the serialisation of a URL that has the scheme and host of the parsed
API URL and the path and raw query of the incoming request; every other field of that
URL is the API URL's (nothing else is rewritten); the path and raw query of the API URL
have no influence on it; and a request that is sent has the URL `http.NewRequest` made
from that string. -/
theorem upstream_url_is_base_plus_incoming_path (env : Env) (apiURL : String) (api : URL)
    (h : Request → Outcome) (r : Request)
    (hh : createHandler env apiURL = .ok h) (hapi : env.urlParse apiURL = some api)
    (hm : r.Method ≠ "OPTIONS") :
    ∃ t : URL,
      (h r).built = [(r.Method, env.urlString t)] ∧
      t.Scheme = api.Scheme ∧ t.Host = api.Host ∧
      t.Path = r.URL.Path ∧ t.RawQuery = r.URL.RawQuery ∧
      (t.Opaque = api.Opaque ∧ t.User = api.User ∧ t.RawPath = api.RawPath ∧
        t.OmitHost = api.OmitHost ∧ t.ForceQuery = api.ForceQuery ∧
        t.Fragment = api.Fragment ∧ t.RawFragment = api.RawFragment) ∧
      (∀ p q : String,
        (handler env { api with Path := p, RawQuery := q } r).built = (h r).built) ∧
      (∀ req ∈ (h r).sent, env.newRequest r.Method (env.urlString t) = some req.URL) := by
  obtain ⟨api', hapi', rfl⟩ := createHandler_ok env apiURL h hh
  rw [hapi] at hapi'
  cases hapi'
  have hbuilt : ∀ a : URL, (handler env a r).built = [(r.Method, env.urlString (targetURL a r))] := by
    intro a
    rcases handler_cases env a r with ⟨hm', -⟩ | ⟨-, -, he⟩ | ⟨-, u, e, -, -, he⟩ |
        ⟨-, u, resp, -, -, he⟩
    · exact absurd hm' hm
    · rw [he]
    · rw [he]
    · rw [he]
  refine ⟨targetURL api r, hbuilt api, rfl, rfl, rfl, rfl, ⟨rfl, rfl, rfl, rfl, rfl, rfl, rfl⟩, ?_, ?_⟩
  · intro p q
    rw [hbuilt, hbuilt]
    rfl
  · intro req hreq
    rcases handler_cases env api r with ⟨hm', -⟩ | ⟨-, -, he⟩ | ⟨-, u, e, hnew, -, he⟩ |
        ⟨-, u, resp, hnew, -, he⟩
    · exact absurd hm' hm
    · rw [he] at hreq; cases hreq
    · rw [he] at hreq
      have hu : req = builtRequest r u := by simpa using hreq
      rw [hu, hnew]; rfl
    · rw [he] at hreq
      have hu : req = builtRequest r u := by simpa using hreq
      rw [hu, hnew]; rfl

theorem upstream_url_is_base_plus_incoming_path_witness :
    ∃ t : URL,
      (handler (demoEnv (.ok demoResp)) demoAPI demoGet).built =
        [(demoGet.Method, (demoEnv (.ok demoResp)).urlString t)] ∧
      t.Scheme = demoAPI.Scheme ∧ t.Host = demoAPI.Host ∧
      t.Path = demoGet.URL.Path ∧ t.RawQuery = demoGet.URL.RawQuery ∧
      (t.Opaque = demoAPI.Opaque ∧ t.User = demoAPI.User ∧ t.RawPath = demoAPI.RawPath ∧
        t.OmitHost = demoAPI.OmitHost ∧ t.ForceQuery = demoAPI.ForceQuery ∧
        t.Fragment = demoAPI.Fragment ∧ t.RawFragment = demoAPI.RawFragment) ∧
      (∀ p q : String,
        (handler (demoEnv (.ok demoResp)) { demoAPI with Path := p, RawQuery := q } demoGet).built =
          (handler (demoEnv (.ok demoResp)) demoAPI demoGet).built) ∧
      (∀ req ∈ (handler (demoEnv (.ok demoResp)) demoAPI demoGet).sent,
        (demoEnv (.ok demoResp)).newRequest demoGet.Method
          ((demoEnv (.ok demoResp)).urlString t) = some req.URL) :=
  upstream_url_is_base_plus_incoming_path (demoEnv (.ok demoResp)) "http://up.test/base?k=v"
    demoAPI (handler (demoEnv (.ok demoResp)) demoAPI) demoGet (by rfl) (by rfl) (by decide)

/-- C10: for a non-`OPTIONS` request, when `http.NewRequest` fails or the upstream call
fails, the response is the one `http.Error` writes on the injected headers: status 500,
content type `text/plain; charset=utf-8`, the error message and a newline as body, and no
header but the three injected ones and the two of `http.Error` (whatever response came
with the error); at most one request was passed to `client.Do`. -/
theorem upstream_failure_yields_500_once (env : Env) (apiURL : String) (api : URL)
    (h : Request → Outcome) (r : Request)
    (hh : createHandler env apiURL = .ok h) (hapi : env.urlParse apiURL = some api)
    (hm : r.Method ≠ "OPTIONS")
    (hfail : env.newRequest r.Method (env.urlString (targetURL api r)) = none ∨
      ∃ req ∈ (h r).sent, ∃ e, env.clientDo req = .error e) :
    (∃ msg ∈ ["Failed to create request", "Failed to make request to target URL"],
        (h r).w = errorResponse msg ∧ (h r).w.body = bytesOf (msg ++ "\n")) ∧
      (h r).w.status = some 500 ∧
      (h r).w.sentHeader.Get "Content-Type" = "text/plain; charset=utf-8" ∧
      (h r).w.sentHeader.keys = corsNames ++ ["Content-Type", "X-Content-Type-Options"] ∧
      (h r).sent.length ≤ 1 ∧ (h r).built.length = 1 ∧ (h r).closed = false := by
  obtain ⟨api', hapi', rfl⟩ := createHandler_ok env apiURL h hh
  rw [hapi] at hapi'
  cases hapi'
  have herr : ∀ msg, (errorResponse msg).body = bytesOf (msg ++ "\n") ∧
      (errorResponse msg).status = some 500 ∧
      (errorResponse msg).sentHeader.Get "Content-Type" = "text/plain; charset=utf-8" ∧
      (errorResponse msg).sentHeader.keys =
        corsNames ++ ["Content-Type", "X-Content-Type-Options"] := by
    intro msg
    rw [errorResponse_eq]
    refine ⟨rfl, rfl, ?_, ?_⟩
    · simp only []; decide
    · simp only []; decide
  rcases handler_cases env api r with ⟨hm', -⟩ | ⟨-, -, he⟩ | ⟨-, u, e, -, -, he⟩ |
      ⟨-, u, resp, hnew, hdo, he⟩
  · exact absurd hm' hm
  · rw [he]
    obtain ⟨h1, h2, h3, h4⟩ := herr "Failed to create request"
    exact ⟨⟨_, by simp, rfl, h1⟩, h2, h3, h4, by simp, by simp, rfl⟩
  · rw [he]
    obtain ⟨h1, h2, h3, h4⟩ := herr "Failed to make request to target URL"
    exact ⟨⟨_, by simp, rfl, h1⟩, h2, h3, h4, by simp, by simp, rfl⟩
  · exfalso
    rcases hfail with hf | ⟨req, hreq, e, hf⟩
    · rw [hnew] at hf; cases hf
    · rw [he] at hreq
      have hu : req = builtRequest r u := by simpa using hreq
      rw [hu, hdo] at hf
      cases hf

theorem upstream_failure_yields_500_once_witness :
    (∃ msg ∈ ["Failed to create request", "Failed to make request to target URL"],
        (handler (demoEnv (.error ⟨"redirect refused", some demoResp⟩)) demoAPI demoGet).w =
          errorResponse msg ∧
        (handler (demoEnv (.error ⟨"redirect refused", some demoResp⟩)) demoAPI demoGet).w.body =
          bytesOf (msg ++ "\n")) ∧
      (handler (demoEnv (.error ⟨"redirect refused", some demoResp⟩)) demoAPI demoGet).w.status =
        some 500 ∧
      (handler (demoEnv (.error ⟨"redirect refused", some demoResp⟩)) demoAPI
        demoGet).w.sentHeader.Get "Content-Type" = "text/plain; charset=utf-8" ∧
      (handler (demoEnv (.error ⟨"redirect refused", some demoResp⟩)) demoAPI
        demoGet).w.sentHeader.keys = corsNames ++ ["Content-Type", "X-Content-Type-Options"] ∧
      (handler (demoEnv (.error ⟨"redirect refused", some demoResp⟩)) demoAPI
        demoGet).sent.length ≤ 1 ∧
      (handler (demoEnv (.error ⟨"redirect refused", some demoResp⟩)) demoAPI
        demoGet).built.length = 1 ∧
      (handler (demoEnv (.error ⟨"redirect refused", some demoResp⟩)) demoAPI
        demoGet).closed = false :=
  upstream_failure_yields_500_once (demoEnv (.error ⟨"redirect refused", some demoResp⟩))
    "http://up.test/base?k=v" demoAPI
    (handler (demoEnv (.error ⟨"redirect refused", some demoResp⟩)) demoAPI) demoGet
    (by rfl) (by rfl) (by decide)
    (Or.inr ⟨builtRequest demoGet (mkURL "http" "up.test" "/items" "a=1"), by decide,
      ⟨"redirect refused", some demoResp⟩, rfl⟩)

/-! ## Claims about `serverControl` -/

/-- C6: with `running` set, `startServer` returns without an error and leaves the whole
state as it was (server, running, cancelFn, no server made, no goroutine spawned, no log
line); with `running` not set, `stopServer` returns without an error and leaves the whole
state as it was (no cancel function called, no server shut down, no log line). -/
theorem start_stop_are_noops_outside_guard (env : Env) (w₁ w₂ : World) (apiURL port : String)
    (h₁ : w₁.sc.running = true) (h₂ : w₂.sc.running = false) :
    startServer env w₁ apiURL port = .ok w₁ ∧ stopServer w₂ = .ok w₂ := by
  constructor
  · simp [startServer, h₁]
  · simp [stopServer, h₂]

theorem start_stop_are_noops_outside_guard_witness :
    startServer (demoEnv (.ok demoResp))
        { sc := { server := some 0, running := true, cancelFn := some 0 },
          servers := [⟨":8764", "http://up.test/base?k=v", true, false⟩],
          cancelled := [false], tasks := [Task.serving 0],
          log := ["Server is starting on :8764"] } "http://up.test/items" "9000" =
      .ok { sc := { server := some 0, running := true, cancelFn := some 0 },
            servers := [⟨":8764", "http://up.test/base?k=v", true, false⟩],
            cancelled := [false], tasks := [Task.serving 0],
            log := ["Server is starting on :8764"] } ∧
      stopServer World.init = .ok World.init :=
  start_stop_are_noops_outside_guard (demoEnv (.ok demoResp)) _ World.init
    "http://up.test/items" "9000" rfl rfl

theorem Dangling.startServer (env : Env) (w w' : World) (apiURL port : String)
    (hs : startServer env w apiURL port = .ok w') (hw : Dangling w) : Dangling w' := by
  unfold Uncors.startServer at hs
  by_cases hr : w.sc.running = true
  · rw [if_pos hr] at hs
    cases hs
    exact hw
  · rw [if_neg hr] at hs
    cases hc : createHandler env apiURL with
    | error e => rw [hc] at hs; cases hs
    | ok h =>
      rw [hc] at hs
      cases hs
      obtain ⟨⟨srv, h1, h2, h3⟩, -, -⟩ := hw
      have hlen : 1 < w.servers.length := (List.getElem?_eq_some.mp h1).1
      refine ⟨⟨srv, ?_, h2, h3⟩, ?_, ?_⟩
      · show (w.servers ++ _)[1]? = some srv
        rw [List.getElem?_append_left hlen, h1]
      · intro hsrv
        have : w.servers.length = 1 := by simpa using hsrv
        omega
      · intro s hsrv
        have : w.servers.length = s := by simpa using hsrv
        omega

theorem Dangling.stopServer (w w' : World) (hs : stopServer w = .ok w') (hw : Dangling w) :
    Dangling w' := by
  unfold Uncors.stopServer at hs
  by_cases hr : w.sc.running = true
  · simp only [hr, Bool.not_true, Bool.false_eq_true, if_false] at hs
    obtain ⟨⟨srv, h1, h2, h3⟩, h4, h5⟩ := hw
    cases hc : w.sc.cancelFn with
    | none => rw [hc] at hs; cases hs
    | some c =>
      cases hsv : w.sc.server with
      | none => rw [hc, hsv] at hs; cases hs
      | some s =>
        rw [hc, hsv] at hs
        simp only [Except.ok.injEq] at hs
        subst hs
        have hs1 : 1 ≤ s := h5 s hsv
        have hne : s ≠ 1 := by
          intro h
          subst h
          have := (h4 hsv).1
          rw [hr] at this
          cases this
        refine ⟨⟨srv, ?_, h2, h3⟩, ?_, ?_⟩
        · show (shutdown w.servers s)[1]? = some srv
          unfold shutdown
          cases w.servers[s]? with
          | none => exact h1
          | some x => simp only []; rw [List.getElem?_set_ne hne, h1]
        · intro h
          have : s = 1 := by simpa [hsv] using h
          exact absurd this hne
        · intro s' h
          have : s = s' := by simpa [hsv] using h
          omega
  · have hr' : w.sc.running = false := by simpa using hr
    simp only [hr', Bool.not_false, if_true] at hs
    cases hs
    exact hw

theorem not_setRunning_mem_set (tasks : List Task) (t : Nat) (x : Task)
    (hx : ∀ port, x ≠ Task.setRunning port)
    (h : ∀ port, Task.setRunning port ∉ tasks) :
    ∀ port, Task.setRunning port ∉ tasks.set t x := by
  intro port hmem
  rcases List.mem_or_eq_of_mem_set hmem with h' | h'
  · exact h port h'
  · exact hx port h'.symm

theorem Dangling.taskStep (w w' : World) (t : Nat) (hs : taskStep w t = some w')
    (hw : Dangling w) : Dangling w' := by
  obtain ⟨⟨srv, h1, h2, h3⟩, h4, h5⟩ := hw
  unfold Uncors.taskStep at hs
  cases ht : w.tasks[t]? with
  | none => rw [ht] at hs; cases hs
  | some task =>
    rw [ht] at hs
    cases task with
    | setRunning port =>
      simp only [Option.some.injEq] at hs
      subst hs
      have hmem : Task.setRunning port ∈ w.tasks := List.getElem?_mem ht
      have hne : w.sc.server ≠ some 1 := fun h => (h4 h).2 port hmem
      exact ⟨⟨srv, h1, h2, h3⟩, fun h => absurd h hne, h5⟩
    | listen =>
      simp only [] at hs
      cases hsv : w.sc.server with
      | none => rw [hsv] at hs; cases hs
      | some s =>
        rw [hsv] at hs
        simp only [] at hs
        cases hx : w.servers[s]? with
        | none => rw [hx] at hs; cases hs
        | some x =>
          rw [hx] at hs
          simp only [] at hs
          have hkeep : ∀ port, Task.setRunning port ∉ w.tasks →
              Task.setRunning port ∉ w.tasks.set t Task.clear := by
            intro port hp hmem
            rcases List.mem_or_eq_of_mem_set hmem with h' | h'
            · exact hp h'
            · cases h'
          split at hs
          · simp only [Option.some.injEq] at hs
            subst hs
            exact ⟨⟨srv, h1, h2, h3⟩,
              fun h => ⟨(h4 h).1, fun port => hkeep port ((h4 h).2 port)⟩, h5⟩
          · split at hs
            · simp only [Option.some.injEq] at hs
              subst hs
              exact ⟨⟨srv, h1, h2, h3⟩,
                fun h => ⟨(h4 h).1, fun port => hkeep port ((h4 h).2 port)⟩, h5⟩
            · simp only [Option.some.injEq] at hs
              subst hs
              refine ⟨?_, fun h => ⟨(h4 h).1, ?_⟩, h5⟩
              · by_cases hs1 : s = 1
                · subst hs1
                  rw [h1] at hx
                  cases hx
                  have hlen : 1 < w.servers.length := (List.getElem?_eq_some.mp h1).1
                  exact ⟨{ srv with listening := true },
                    by show (w.servers.set 1 _)[1]? = _; rw [List.getElem?_set_self hlen],
                    rfl, h3⟩
                · exact ⟨srv, by show (w.servers.set s _)[1]? = _;
                                 rw [List.getElem?_set_ne hs1, h1], h2, h3⟩
              · intro port hmem
                rcases List.mem_or_eq_of_mem_set hmem with h' | h'
                · exact (h4 h).2 port h'
                · cases h'
    | serving s =>
      simp only [] at hs
      cases hx : w.servers[s]? with
      | none => rw [hx] at hs; cases hs
      | some x =>
        rw [hx] at hs
        simp only [] at hs
        split at hs
        · simp only [Option.some.injEq] at hs
          subst hs
          refine ⟨⟨srv, h1, h2, h3⟩, fun h => ⟨(h4 h).1, ?_⟩, h5⟩
          exact not_setRunning_mem_set _ _ _ (fun _ h => by cases h) (h4 h).2
        · cases hs
    | clear =>
      simp only [Option.some.injEq] at hs
      subst hs
      refine ⟨⟨srv, h1, h2, h3⟩, fun h => ⟨rfl, ?_⟩, h5⟩
      exact not_setRunning_mem_set _ _ _ (fun _ h => by cases h) (h4 h).2
    | done => cases hs

theorem Dangling.step (env : Env) (w w' : World) (a : Action) (hs : step env w a = some w')
    (hw : Dangling w) : Dangling w' := by
  cases a with
  | start apiURL port =>
    simp only [Uncors.step] at hs
    cases h : Uncors.startServer env w apiURL port with
    | error e => rw [h] at hs; cases hs
    | ok x =>
      rw [h] at hs
      cases hs
      exact Dangling.startServer env w _ apiURL port h hw
  | stop =>
    simp only [Uncors.step] at hs
    cases h : Uncors.stopServer w with
    | error e => rw [h] at hs; cases hs
    | ok x =>
      rw [h] at hs
      cases hs
      exact Dangling.stopServer w _ h hw
  | task t => exact Dangling.taskStep w w' t hs hw

theorem Dangling.run (env : Env) (trace : List Action) (w w' : World)
    (hs : run env w trace = some w') (hw : Dangling w) : Dangling w' := by
  induction trace generalizing w with
  | nil =>
    simp only [Uncors.run, Option.some.injEq] at hs
    subst hs
    exact hw
  | cons a rest ih =>
    simp only [Uncors.run] at hs
    cases h : Uncors.step env w a with
    | none => rw [h] at hs; cases hs
    | some x =>
      rw [h] at hs
      exact ih x hs (Dangling.step env w x a h hw)

theorem Dangling.mem_liveListeners (w : World) (hw : Dangling w) : 1 ∈ liveListeners w := by
  obtain ⟨⟨srv, h1, h2, -⟩, -, -⟩ := hw
  have hlen : 1 < w.servers.length := (List.getElem?_eq_some.mp h1).1
  simp only [liveListeners, List.mem_filter, List.mem_range]
  exact ⟨hlen, by rw [h1]; simpa using h2⟩

theorem danglingWorld_Dangling : Dangling danglingWorld := by
  refine ⟨⟨⟨":8764", "http://up.test/base?k=v", true, false⟩, rfl, rfl, rfl⟩, ?_, ?_⟩
  · intro _
    refine ⟨rfl, ?_⟩
    intro port
    simp [danglingWorld]
  · intro s h
    have : 1 = s := by simpa [danglingWorld] using h
    omega

/-- C7 fails on the code.  Two `startServer` calls before the first goroutine has run
both pass the guard; the first goroutine then serves the second server, the second
goroutine fails to bind and clears `running`.  In that reachable state a server holds a
bound listener while `stopServer` is a no-op, and whatever steps follow, in whatever
environment, that server keeps its listener.  A third `startServer` on another port
gives a second bound listener, and the `stopServer` that follows shuts down only the
newest server. -/
theorem double_start_reaches_dangling_and_two_listeners :
    (run (demoEnv (.ok demoResp)) World.init
        [Action.start "http://up.test/base?k=v" "8764",
         Action.start "http://up.test/base?k=v" "8764",
         Action.task 0, Action.task 0, Action.task 1, Action.task 1, Action.task 1] =
        some danglingWorld ∧
      liveListeners danglingWorld = [1] ∧ danglingWorld.sc.running = false ∧
      stopServer danglingWorld = .ok danglingWorld) ∧
    (∀ (env : Env) (trace : List Action) (w : World),
      run env danglingWorld trace = some w → 1 ∈ liveListeners w) ∧
    (run (demoEnv (.ok demoResp)) danglingWorld
        [Action.start "http://up.test/base?k=v" "9000", Action.task 2, Action.task 2] =
        some twoListenersWorld ∧
      liveListeners twoListenersWorld = [1, 2] ∧
      (∃ w, stopServer twoListenersWorld = .ok w ∧ liveListeners w = [1] ∧
        w.sc.server = some 2 ∧ w.sc.running = false)) := by
  refine ⟨⟨by decide, by decide, by decide, rfl⟩, ?_,
    ⟨by decide, by decide, ⟨_, rfl, ?_, ?_, ?_⟩⟩⟩
  · intro env trace w hrun
    exact Dangling.mem_liveListeners w (Dangling.run env trace danglingWorld w hrun
      danglingWorld_Dangling)
  · decide
  · decide
  · decide

/-! ## Claims about `MakeMockedRoutes` -/

theorem length_pos_iff_ne_empty (s : String) : s.length > 0 ↔ s ≠ "" := by
  cases s with
  | mk data =>
    cases data with
    | nil => simp [String.length]
    | cons c cs =>
      simp only [String.length, List.length_cons, gt_iff_lt, Nat.zero_lt_succ, true_iff]
      intro h
      have := congrArg String.data h
      simp at this

/-- The test at line 12 of `routes.go` is the spec's partition test. -/
theorem line12_eq_isDiscriminated (mock : Mock) :
    (decide (mock.Queries.length > 0) || decide (mock.Headers.length > 0) ||
      decide (mock.Method.length > 0)) = mock.isDiscriminated := by
  have hm : decide (mock.Method.length > 0) = decide (mock.Method ≠ "") :=
    decide_eq_decide.mpr (length_pos_iff_ne_empty _)
  have hq : decide (mock.Queries.length > 0) = !mock.Queries.isEmpty := by
    cases mock.Queries <;> simp
  have hh : decide (mock.Headers.length > 0) = !mock.Headers.isEmpty := by
    cases mock.Headers <;> simp
  rw [hm, hq, hh, Mock.isDiscriminated]
  cases decide (mock.Method ≠ "") <;> cases mock.Queries.isEmpty <;>
    cases mock.Headers.isEmpty <;> rfl

theorem firstLoop_eq (logger : Logger) (mocks : List Mock) (st : Router × List Mock) :
    mocks.foldl (fun (st : Router × List Mock) mock =>
      if mock.Queries.length > 0 || mock.Headers.length > 0 || mock.Method.length > 0 then
        let route := Route.new
        let route := setPath route mock.Path
        let route := setMethod route mock.Method
        let route := setQueries route mock.Queries
        let route := setHeaders route mock.Headers
        let handler := NewMockHandler mock.Response logger
        (st.1 ++ [route.Handler handler], st.2)
      else
        (st.1, st.2 ++ [mock])) st =
    (st.1 ++ (mocks.filter Mock.isDiscriminated).map (discriminatedRoute logger),
     st.2 ++ mocks.filter (fun m => !m.isDiscriminated)) := by
  induction mocks generalizing st with
  | nil => simp
  | cons m t ih =>
    rw [List.foldl_cons, ih]
    have h12 := line12_eq_isDiscriminated m
    by_cases hd : m.isDiscriminated = true
    · rw [hd] at h12
      simp only [h12, if_true, List.filter_cons, hd, List.map_cons, Bool.not_true,
        List.append_assoc, List.singleton_append]
      simp [discriminatedRoute]
    · have hd' : m.isDiscriminated = false := by simpa using hd
      rw [hd'] at h12
      simp only [h12, List.filter_cons, hd', List.append_assoc, List.singleton_append,
        Bool.not_false]
      simp

theorem secondLoop_eq (logger : Logger) (defaultMocks : List Mock) (router : Router) :
    defaultMocks.foldl (fun router mock =>
      let route := Route.new
      let route := setPath route mock.Path
      let handler := NewMockHandler mock.Response logger
      router ++ [route.Handler handler]) router =
    router ++ defaultMocks.map (defaultRoute logger) := by
  induction defaultMocks generalizing router with
  | nil => simp
  | cons m t ih =>
    rw [List.foldl_cons, ih]
    simp [defaultRoute]

theorem MakeMockedRoutes_eq (router : Router) (logger : Logger) (mocks : List Mock) :
    MakeMockedRoutes router logger mocks =
      router ++ ((mocks.filter Mock.isDiscriminated).map (discriminatedRoute logger) ++
        (mocks.filter (fun m => !m.isDiscriminated)).map (defaultRoute logger)) := by
  unfold MakeMockedRoutes
  simp only [firstLoop_eq, secondLoop_eq, List.nil_append, List.append_assoc]

theorem registered_eq (router : Router) (logger : Logger) (mocks : List Mock) :
    registered router logger mocks =
      (mocks.filter Mock.isDiscriminated).map (discriminatedRoute logger) ++
        (mocks.filter (fun m => !m.isDiscriminated)).map (defaultRoute logger) := by
  rw [registered, MakeMockedRoutes_eq, List.drop_left]

theorem matchers_setPath (route : Route) (path : String) :
    (setPath route path).matchers =
      route.matchers ++ (if path = "" then [] else [Matcher.path path]) := by
  unfold setPath
  by_cases h : path = ""
  · subst h; simp
  · have : path.length > 0 := (length_pos_iff_ne_empty path).mpr h
    simp [this, h, Route.Path]

theorem matchers_setMethod (route : Route) (methods : String) :
    (setMethod route methods).matchers =
      route.matchers ++ (if methods = "" then [] else [Matcher.methods methods]) := by
  unfold setMethod
  by_cases h : methods = ""
  · subst h; simp
  · have : methods.length > 0 := (length_pos_iff_ne_empty methods).mpr h
    simp [this, h, Route.Methods]

theorem matchers_foldl_Queries (queries : List (String × String)) (route : Route) :
    (queries.foldl (fun route kv => Route.Queries route kv.1 kv.2) route).matchers =
      route.matchers ++ queries.map (fun kv => Matcher.queries kv.1 kv.2) := by
  induction queries generalizing route with
  | nil => simp
  | cons q t ih => rw [List.foldl_cons, ih]; simp [Route.Queries]

theorem matchers_foldl_Headers (headers : List (String × String)) (route : Route) :
    (headers.foldl (fun route kv => Route.Headers route kv.1 kv.2) route).matchers =
      route.matchers ++ headers.map (fun kv => Matcher.headers kv.1 kv.2) := by
  induction headers generalizing route with
  | nil => simp
  | cons q t ih => rw [List.foldl_cons, ih]; simp [Route.Headers]

theorem matchers_setQueries (route : Route) (queries : List (String × String)) :
    (setQueries route queries).matchers =
      route.matchers ++ queries.map (fun kv => Matcher.queries kv.1 kv.2) := by
  unfold setQueries
  cases queries with
  | nil => simp
  | cons q t =>
    rw [if_pos (by simp), matchers_foldl_Queries]

theorem matchers_setHeaders (route : Route) (headers : List (String × String)) :
    (setHeaders route headers).matchers =
      route.matchers ++ headers.map (fun kv => Matcher.headers kv.1 kv.2) := by
  unfold setHeaders
  cases headers with
  | nil => simp
  | cons q t =>
    rw [if_pos (by simp), matchers_foldl_Headers]

theorem all_map_eq {α β : Type} (l : List α) (f : α → β) (p : β → Bool) :
    (l.map f).all p = l.all (fun x => p (f x)) := by
  induction l with
  | nil => rfl
  | cons a t ih => simp [ih]

/-- The route of the first loop matches exactly the requests that satisfy the
constraints of its mock. -/
theorem discriminatedRoute_Match {Req : Type} (sem : Matcher → Req → Bool) (logger : Logger)
    (m : Mock) (req : Req) :
    (discriminatedRoute logger m).Match sem req = m.matches sem req := by
  have hm : (discriminatedRoute logger m).matchers =
      (if m.Path = "" then [] else [Matcher.path m.Path]) ++
      (if m.Method = "" then [] else [Matcher.methods m.Method]) ++
      m.Queries.map (fun kv => Matcher.queries kv.1 kv.2) ++
      m.Headers.map (fun kv => Matcher.headers kv.1 kv.2) := by
    simp [discriminatedRoute, Route.Handler, matchers_setHeaders, matchers_setQueries,
      matchers_setMethod, matchers_setPath, Route.new]
  rw [Route.Match, hm, Mock.matches]
  simp only [List.all_append, all_map_eq]
  by_cases hp : m.Path = "" <;> by_cases hme : m.Method = "" <;>
    simp [hp, hme]

/-- The route of the second loop matches exactly the requests that satisfy the
constraints of its mock, which has none but the path. -/
theorem defaultRoute_Match {Req : Type} (sem : Matcher → Req → Bool) (logger : Logger)
    (m : Mock) (hd : m.isDiscriminated = false) (req : Req) :
    (defaultRoute logger m).Match sem req = m.matches sem req := by
  have hm : (defaultRoute logger m).matchers =
      (if m.Path = "" then [] else [Matcher.path m.Path]) := by
    simp [defaultRoute, Route.Handler, matchers_setPath, Route.new]
  simp only [Mock.isDiscriminated, Bool.or_eq_false_iff, decide_eq_false_iff_not, ne_eq,
    not_not, Bool.not_eq_false', List.isEmpty_iff] at hd
  obtain ⟨⟨h1, h2⟩, h3⟩ := hd
  rw [Route.Match, hm, Mock.matches, h1, h2, h3]
  by_cases hp : m.Path = "" <;> simp [hp]

theorem Router.Match_append {Req : Type} (sem : Matcher → Req → Bool) (a b : Router) (req : Req) :
    Router.Match sem (a ++ b) req =
      match Router.Match sem a req with
      | some i => some i
      | none => (Router.Match sem b req).map (· + a.length) := by
  induction a with
  | nil => simp [Router.Match]
  | cons r t ih =>
    simp only [List.cons_append, Router.Match]
    by_cases hr : r.Match sem req = true
    · simp [hr]
    · simp only [hr, List.append_eq]
      rw [ih]
      cases ht : Router.Match sem t req with
      | some i => simp
      | none =>
        cases hb : Router.Match sem b req with
        | none => simp
        | some j => simp [Nat.add_assoc]

/-- What the index that first-match-wins dispatch returns means. -/
theorem Router.Match_eq_some_iff {Req : Type} (sem : Matcher → Req → Bool) (a : Router)
    (req : Req) (i : Nat) :
    Router.Match sem a req = some i ↔
      (∃ r, a[i]? = some r ∧ r.Match sem req = true) ∧
        ∀ j r, j < i → a[j]? = some r → r.Match sem req = false := by
  induction a generalizing i with
  | nil => simp [Router.Match]
  | cons r t ih =>
    simp only [Router.Match]
    by_cases hr : r.Match sem req = true
    · simp only [hr, if_true, Option.some.injEq]
      constructor
      · intro h; subst h
        exact ⟨⟨r, by simp, hr⟩, fun j _ hj => absurd hj (Nat.not_lt_zero j)⟩
      · rintro ⟨-, h2⟩
        cases i with
        | zero => rfl
        | succ n =>
          have := h2 0 r (Nat.succ_pos n) (by simp)
          rw [hr] at this; cases this
    · have hr' : r.Match sem req = false := by simpa using hr
      simp only [hr', Bool.false_eq_true, if_false, Option.map_eq_some']
      constructor
      · rintro ⟨k, hk, rfl⟩
        obtain ⟨⟨r', hr1, hr2⟩, h2⟩ := (ih k).mp hk
        refine ⟨⟨r', by simpa using hr1, hr2⟩, ?_⟩
        intro j r'' hj hjr
        cases j with
        | zero => simp at hjr; subst hjr; exact hr'
        | succ n => exact h2 n r'' (Nat.lt_of_succ_lt_succ hj) (by simpa using hjr)
      · rintro ⟨⟨r', hr1, hr2⟩, h2⟩
        cases i with
        | zero => simp at hr1; subst hr1; rw [hr'] at hr2; cases hr2
        | succ n =>
          refine ⟨n, (ih n).mpr ⟨⟨r', by simpa using hr1, hr2⟩, ?_⟩, rfl⟩
          intro j r'' hj hjr
          exact h2 (j + 1) r'' (Nat.succ_lt_succ hj) (by simpa using hjr)

theorem Router.Match_isSome_of_mem {Req : Type} (sem : Matcher → Req → Bool) (a : Router)
    (req : Req) (r : Route) (hr : r ∈ a) (hm : r.Match sem req = true) :
    ∃ i, Router.Match sem a req = some i ∧ i < a.length := by
  induction a with
  | nil => cases hr
  | cons r' t ih =>
    simp only [Router.Match]
    by_cases hr' : r'.Match sem req = true
    · exact ⟨0, by simp [hr'], by simp⟩
    · rcases List.mem_cons.mp hr with h | h
      · subst h; exact absurd hm hr'
      · obtain ⟨i, hi, hlt⟩ := ih h
        exact ⟨i + 1, by simp [hr', hi], by simpa using hlt⟩

theorem Router.Match_eq_none_of_forall {Req : Type} (sem : Matcher → Req → Bool) (a : Router)
    (req : Req) (h : ∀ r ∈ a, r.Match sem req = false) : Router.Match sem a req = none := by
  induction a with
  | nil => rfl
  | cons r' t ih =>
    simp only [Router.Match]
    rw [h r' (by simp)]
    simp [ih (fun r hr => h r (List.mem_cons_of_mem _ hr))]

/-- C1: when some discriminated mock of the list matches the request, first-match-wins
dispatch over the routes `MakeMockedRoutes` registers selects a route of the
discriminated block: its index is below the number of discriminated mocks, it is the
route built for the discriminated mock with that index in declaration order, that mock
matches, and no discriminated mock declared before it does.  No default mock is
selected, wherever the default mocks stand in the list. -/
theorem discriminated_match_beats_default {Req : Type} (sem : Matcher → Req → Bool)
    (router : Router) (logger : Logger) (mocks : List Mock) (req : Req)
    (h : ∃ m ∈ mocks, m.isDiscriminated = true ∧ m.matches sem req = true) :
    ∃ i m, Router.Match sem (registered router logger mocks) req = some i ∧
      i < (mocks.filter Mock.isDiscriminated).length ∧
      (mocks.filter Mock.isDiscriminated)[i]? = some m ∧
      (registered router logger mocks)[i]? = some (discriminatedRoute logger m) ∧
      m ∈ mocks ∧ m.isDiscriminated = true ∧ m.matches sem req = true ∧
      (∀ j m', j < i → (mocks.filter Mock.isDiscriminated)[j]? = some m' →
        m'.matches sem req = false) := by
  obtain ⟨m0, hm0, hd0, hmatch0⟩ := h
  rw [registered_eq]
  have hmem : discriminatedRoute logger m0 ∈
      (mocks.filter Mock.isDiscriminated).map (discriminatedRoute logger) :=
    List.mem_map.mpr ⟨m0, List.mem_filter.mpr ⟨hm0, hd0⟩, rfl⟩
  obtain ⟨i, hi, hlt⟩ := Router.Match_isSome_of_mem sem _ req _ hmem
    (by rw [discriminatedRoute_Match]; exact hmatch0)
  rw [List.length_map] at hlt
  obtain ⟨⟨r, hr, hrm⟩, hfirst⟩ := (Router.Match_eq_some_iff sem _ req i).mp hi
  rw [List.getElem?_map] at hr
  obtain ⟨m, hm, rfl⟩ := Option.map_eq_some'.mp hr
  have hmf : m ∈ mocks.filter Mock.isDiscriminated := List.getElem?_mem hm
  obtain ⟨hmm, hmd⟩ := List.mem_filter.mp hmf
  refine ⟨i, m, ?_, hlt, hm, ?_, hmm, hmd, ?_, ?_⟩
  · rw [Router.Match_append, hi]
  · rw [List.getElem?_append_left (by rw [List.length_map]; exact hlt), List.getElem?_map, hm]
    rfl
  · rw [← discriminatedRoute_Match sem logger]; exact hrm
  · intro j m' hj hm'
    rw [← discriminatedRoute_Match sem logger]
    exact hfirst j _ hj (by rw [List.getElem?_map, hm']; rfl)

/-- C9: the routes `MakeMockedRoutes` appends are the routes of the discriminated mocks
in declaration order followed by the routes of the default mocks in declaration order,
a rearrangement of the list that drops and repeats no mock.  Hence a default mock with
empty path is selected for every request that no discriminated mock and no default mock
declared before it matches: of two default mocks with empty path, the first declared. -/
theorem routes_are_stable_partition {Req : Type} (sem : Matcher → Req → Bool)
    (router : Router) (logger : Logger) (mocks : List Mock) :
    MakeMockedRoutes router logger mocks =
        router ++ ((mocks.filter Mock.isDiscriminated).map (discriminatedRoute logger) ++
          (mocks.filter (fun m => !m.isDiscriminated)).map (defaultRoute logger)) ∧
      (mocks.filter Mock.isDiscriminated ++ mocks.filter (fun m => !m.isDiscriminated)).Perm
        mocks ∧
      (registered router logger mocks).length = mocks.length ∧
      ∀ (pre post : List Mock) (d : Mock) (req : Req),
        mocks = pre ++ d :: post → d.isDiscriminated = false → d.Path = "" →
        (∀ m ∈ mocks, m.isDiscriminated = true → m.matches sem req = false) →
        (∀ m ∈ pre, m.isDiscriminated = false → m.matches sem req = false) →
        Router.Match sem (registered router logger mocks) req =
            some ((mocks.filter Mock.isDiscriminated).length +
              (pre.filter (fun m => !m.isDiscriminated)).length) ∧
          (registered router logger mocks)[(mocks.filter Mock.isDiscriminated).length +
              (pre.filter (fun m => !m.isDiscriminated)).length]? =
            some (defaultRoute logger d) := by
  have hperm := List.filter_append_perm Mock.isDiscriminated mocks
  refine ⟨MakeMockedRoutes_eq router logger mocks, hperm, ?_, ?_⟩
  · rw [registered_eq, List.length_append, List.length_map, List.length_map,
      ← List.length_append]
    exact hperm.length_eq
  · intro pre post d req hmocks hd hpath hdisc hpre
    rw [registered_eq]
    have hD : Router.Match sem
        ((mocks.filter Mock.isDiscriminated).map (discriminatedRoute logger)) req = none := by
      apply Router.Match_eq_none_of_forall
      intro r hr
      obtain ⟨m, hm, rfl⟩ := List.mem_map.mp hr
      obtain ⟨hmm, hmd⟩ := List.mem_filter.mp hm
      rw [discriminatedRoute_Match]
      exact hdisc m hmm hmd
    have hsplit : mocks.filter (fun m => !m.isDiscriminated) =
        pre.filter (fun m => !m.isDiscriminated) ++
          d :: post.filter (fun m => !m.isDiscriminated) := by
      rw [hmocks, List.filter_append, List.filter_cons]
      simp [hd]
    have hP : Router.Match sem
        ((pre.filter (fun m => !m.isDiscriminated)).map (defaultRoute logger)) req = none := by
      apply Router.Match_eq_none_of_forall
      intro r hr
      obtain ⟨m, hm, rfl⟩ := List.mem_map.mp hr
      obtain ⟨hmm, hmd⟩ := List.mem_filter.mp hm
      have hmd' : m.isDiscriminated = false := by simpa using hmd
      rw [defaultRoute_Match sem logger m hmd']
      exact hpre m hmm hmd'
    have hdm : (defaultRoute logger d).Match sem req = true := by
      rw [defaultRoute_Match sem logger d hd]
      simp only [Mock.isDiscriminated, Bool.or_eq_false_iff, decide_eq_false_iff_not, ne_eq,
        not_not, Bool.not_eq_false', List.isEmpty_iff] at hd
      obtain ⟨⟨h1, h2⟩, h3⟩ := hd
      simp [Mock.matches, hpath, h1, h2, h3]
    constructor
    · rw [Router.Match_append, hD, hsplit, List.map_append, Router.Match_append, hP,
        List.map_cons]
      simp [Router.Match, hdm, Nat.add_comm]
    · rw [List.getElem?_append_right (by rw [List.length_map]; exact Nat.le_add_right _ _),
        List.length_map, Nat.add_sub_cancel_left, hsplit, List.map_append,
        List.getElem?_append_right (by rw [List.length_map]), List.length_map, Nat.sub_self]
      simp

/-- Two default mocks with empty path and different responses. -/
theorem routes_are_stable_partition_witness :
    Router.Match demoSem
        (registered [] "log"
          [⟨"", "", [], [], ⟨200, [], [1]⟩⟩, ⟨"/users", "GET", [], [], ⟨200, [], [3]⟩⟩,
           ⟨"", "", [], [], ⟨404, [], [2]⟩⟩]) demoGet = some 1 ∧
      (registered [] "log"
          [⟨"", "", [], [], ⟨200, [], [1]⟩⟩, ⟨"/users", "GET", [], [], ⟨200, [], [3]⟩⟩,
           ⟨"", "", [], [], ⟨404, [], [2]⟩⟩])[1]? =
        some (defaultRoute "log" ⟨"", "", [], [], ⟨200, [], [1]⟩⟩) :=
  (routes_are_stable_partition demoSem [] "log"
      [⟨"", "", [], [], ⟨200, [], [1]⟩⟩, ⟨"/users", "GET", [], [], ⟨200, [], [3]⟩⟩,
       ⟨"", "", [], [], ⟨404, [], [2]⟩⟩]).2.2.2 []
    [⟨"/users", "GET", [], [], ⟨200, [], [3]⟩⟩, ⟨"", "", [], [], ⟨404, [], [2]⟩⟩]
    ⟨"", "", [], [], ⟨200, [], [1]⟩⟩ demoGet rfl (by decide) rfl (by decide) (by decide)

theorem discriminated_match_beats_default_witness :
    ∃ i m, Router.Match demoSem
        (registered [] "log"
          [⟨"", "", [], [], ⟨200, [], [1]⟩⟩, ⟨"/items", "GET", [], [], ⟨200, [], [3]⟩⟩]) demoGet
        = some i ∧
      i < ([⟨"", "", [], [], ⟨200, [], [1]⟩⟩, ⟨"/items", "GET", [], [], ⟨200, [], [3]⟩⟩].filter
        Mock.isDiscriminated).length ∧
      ([⟨"", "", [], [], ⟨200, [], [1]⟩⟩, ⟨"/items", "GET", [], [], ⟨200, [], [3]⟩⟩].filter
        Mock.isDiscriminated)[i]? = some m ∧
      (registered [] "log"
          [⟨"", "", [], [], ⟨200, [], [1]⟩⟩, ⟨"/items", "GET", [], [], ⟨200, [], [3]⟩⟩])[i]? =
        some (discriminatedRoute "log" m) ∧
      m ∈ [⟨"", "", [], [], ⟨200, [], [1]⟩⟩, ⟨"/items", "GET", [], [], ⟨200, [], [3]⟩⟩] ∧
      m.isDiscriminated = true ∧ m.matches demoSem demoGet = true ∧
      (∀ j m', j < i →
        ([⟨"", "", [], [], ⟨200, [], [1]⟩⟩, ⟨"/items", "GET", [], [], ⟨200, [], [3]⟩⟩].filter
          Mock.isDiscriminated)[j]? = some m' → m'.matches demoSem demoGet = false) :=
  discriminated_match_beats_default demoSem [] "log"
    [⟨"", "", [], [], ⟨200, [], [1]⟩⟩, ⟨"/items", "GET", [], [], ⟨200, [], [3]⟩⟩] demoGet
    ⟨⟨"/items", "GET", [], [], ⟨200, [], [3]⟩⟩, by decide, by decide, by decide⟩

end Uncors
